import Mathlib

/-!
Verification of the weave-gitops authentication core against its
natural-language specification.

The Go sources embedded here are `pkg/server/auth/server.go` and
`pkg/server/auth/auth.go` (OIDC auth server, cookie handling, API auth
middleware).  The PKCE code verifier and the GitLab OAuth URL builders of
`pkg/services/auth/internal` are present in the repository only through
their tests, so those two components are modelled from the specification
text; every definition modelled that way says so in its doc comment.

Modelling conventions:
* Go strings are Lean `String`s (sequences of unicode scalar values); byte
  slices are `List Nat` with every element below 256.
* The standard-library helpers the handlers call (`encoding/json` for the
  two fixed record shapes, `encoding/base64`, UTF-8 encoding, SHA-256) are
  implemented concretely below, following the behaviour of the Go standard
  library on the shapes this code uses.
* Network calls and other effects (token exchange, ID-token verification,
  the provider user-info endpoint, bcrypt, the Kubernetes secret read,
  `crypto/rand`) are modelled as oracle fields of the server record; the
  handlers are pure functions of the request, the server and those oracles.
* Response bodies are recorded when they are compile-time constant strings
  in the source or when a claim depends on them; bodies that interpolate a
  Go error value are recorded as `none`.
-/

namespace WeaveGitops

/-! ## UTF-8 encoding and decoding

`encoding/json` marshals to UTF-8 bytes and `base64.StdEncoding` consumes
bytes, so the session-state codec of `server.go` works at the byte level.
-/

/-- UTF-8 encoding of one unicode scalar value `n`, as its list of bytes. -/
def utf8EncodeCharNat (n : Nat) : List Nat :=
  if n < 0x80 then [n]
  else if n < 0x800 then [0xC0 + n / 64, 0x80 + n % 64]
  else if n < 0x10000 then [0xE0 + n / 4096, 0x80 + n / 64 % 64, 0x80 + n % 64]
  else [0xF0 + n / 262144, 0x80 + n / 4096 % 64, 0x80 + n / 64 % 64, 0x80 + n % 64]

/-- UTF-8 encoding of a list of characters. -/
def utf8EncodeChars : List Char → List Nat
  | [] => []
  | c :: cs => utf8EncodeCharNat c.toNat ++ utf8EncodeChars cs

/-- UTF-8 encoding of a string, as Go produces when writing a string as bytes. -/
def utf8Encode (s : String) : List Nat := utf8EncodeChars s.data

/-- Strict decoding of the first UTF-8 sequence of a byte list: the decoded
character and the remaining bytes.  Rejects stray continuation bytes,
overlong encodings, surrogate code points and values above 0x10FFFF. -/
def utf8DecodeOne : List Nat → Option (Char × List Nat)
  | [] => none
  | b0 :: rest =>
    if b0 < 0x80 then some (Char.ofNat b0, rest)
    else if b0 < 0xC2 then none
    else if b0 < 0xE0 then
      match rest with
      | b1 :: rest2 =>
        if 0x80 ≤ b1 ∧ b1 < 0xC0 then
          some (Char.ofNat ((b0 - 0xC0) * 64 + (b1 - 0x80)), rest2)
        else none
      | [] => none
    else if b0 < 0xF0 then
      match rest with
      | b1 :: b2 :: rest2 =>
        if (0x80 ≤ b1 ∧ b1 < 0xC0) ∧ (0x80 ≤ b2 ∧ b2 < 0xC0) then
          if 0x800 ≤ (b0 - 0xE0) * 4096 + (b1 - 0x80) * 64 + (b2 - 0x80) ∧
              ((b0 - 0xE0) * 4096 + (b1 - 0x80) * 64 + (b2 - 0x80) < 0xD800 ∨
               0xE000 ≤ (b0 - 0xE0) * 4096 + (b1 - 0x80) * 64 + (b2 - 0x80)) then
            some (Char.ofNat ((b0 - 0xE0) * 4096 + (b1 - 0x80) * 64 + (b2 - 0x80)), rest2)
          else none
        else none
      | _ => none
    else if b0 < 0xF5 then
      match rest with
      | b1 :: b2 :: b3 :: rest2 =>
        if (0x80 ≤ b1 ∧ b1 < 0xC0) ∧ (0x80 ≤ b2 ∧ b2 < 0xC0) ∧ (0x80 ≤ b3 ∧ b3 < 0xC0) then
          if 0x10000 ≤ (b0 - 0xF0) * 262144 + (b1 - 0x80) * 4096 + (b2 - 0x80) * 64 + (b3 - 0x80) ∧
              (b0 - 0xF0) * 262144 + (b1 - 0x80) * 4096 + (b2 - 0x80) * 64 + (b3 - 0x80) <
                0x110000 then
            some (Char.ofNat
              ((b0 - 0xF0) * 262144 + (b1 - 0x80) * 4096 + (b2 - 0x80) * 64 + (b3 - 0x80)), rest2)
          else none
        else none
      | _ => none
    else none

/-- Full UTF-8 decoding, with a fuel argument bounding the number of decoded
characters.  Each successful `utf8DecodeOne` step consumes at least one byte,
so fuel `l.length` is always sufficient. -/
def utf8DecodeAux : Nat → List Nat → Option (List Char)
  | _, [] => some []
  | 0, _ :: _ => none
  | fuel + 1, b :: t =>
    match utf8DecodeOne (b :: t) with
    | none => none
    | some (c, rest) =>
      match utf8DecodeAux fuel rest with
      | some cs => some (c :: cs)
      | none => none

/-- Strict UTF-8 decoding of a byte list. -/
def utf8DecodeChars (l : List Nat) : Option (List Char) := utf8DecodeAux l.length l

/-! ## Base64

`base64.StdEncoding.EncodeToString` and `base64.StdEncoding.DecodeString`
from the Go standard library, used by `startAuthFlow` and `Callback` in
`server.go`.  `StdEncoding` pads with `=` and, when decoding, rejects
characters outside its alphabet and inputs whose length is not a multiple
of four (it does not insist that unused padding bits be zero, and neither
does the model). -/

/-- The standard base64 alphabet. -/
def b64Alphabet : List Char :=
  ['A', 'B', 'C', 'D', 'E', 'F', 'G', 'H', 'I', 'J', 'K', 'L', 'M',
   'N', 'O', 'P', 'Q', 'R', 'S', 'T', 'U', 'V', 'W', 'X', 'Y', 'Z',
   'a', 'b', 'c', 'd', 'e', 'f', 'g', 'h', 'i', 'j', 'k', 'l', 'm',
   'n', 'o', 'p', 'q', 'r', 's', 't', 'u', 'v', 'w', 'x', 'y', 'z',
   '0', '1', '2', '3', '4', '5', '6', '7', '8', '9', '+', '/']

def b64Char (n : Nat) : Char := b64Alphabet.getD n 'A'

def b64IndexAux : List Char → Nat → Char → Option Nat
  | [], _, _ => none
  | a :: as, i, c => if a = c then some i else b64IndexAux as (i + 1) c

/-- Position of a character in the base64 alphabet, `none` for characters
outside it. -/
def b64Index (c : Char) : Option Nat := b64IndexAux b64Alphabet 0 c

/-- `base64.StdEncoding` encoding of a byte list, three bytes to four
characters, with `=` padding. -/
def b64EncodeBytes : List Nat → List Char
  | [] => []
  | [b0] => [b64Char (b0 / 4), b64Char (b0 % 4 * 16), '=', '=']
  | [b0, b1] => [b64Char (b0 / 4), b64Char (b0 % 4 * 16 + b1 / 16), b64Char (b1 % 16 * 4), '=']
  | b0 :: b1 :: b2 :: rest =>
    b64Char (b0 / 4) :: b64Char (b0 % 4 * 16 + b1 / 16) :: b64Char (b1 % 16 * 4 + b2 / 64) ::
      b64Char (b2 % 64) :: b64EncodeBytes rest

/-- `base64.StdEncoding` decoding: four characters at a time, `=` padding
accepted only at the end, `none` on any malformed input. -/
def b64DecodeChars : List Char → Option (List Nat)
  | [] => some []
  | c0 :: c1 :: c2 :: c3 :: rest =>
    match b64Index c0, b64Index c1 with
    | some s0, some s1 =>
      if rest = [] ∧ c2 = '=' ∧ c3 = '=' then some [s0 * 4 + s1 / 16]
      else if rest = [] ∧ c3 = '=' then
        match b64Index c2 with
        | some s2 => some [s0 * 4 + s1 / 16, s1 % 16 * 16 + s2 / 4]
        | none => none
      else
        match b64Index c2, b64Index c3 with
        | some s2, some s3 =>
          match b64DecodeChars rest with
          | some bs => some ((s0 * 4 + s1 / 16) :: (s1 % 16 * 16 + s2 / 4) :: (s2 % 4 * 64 + s3) :: bs)
          | none => none
        | _, _ => none
    | _, _ => none
  | _ => none

/-- `base64.StdEncoding.EncodeToString`. -/
def base64StdEncode (bs : List Nat) : String := String.mk (b64EncodeBytes bs)

/-- `base64.StdEncoding.DecodeString`; `none` models the `CorruptInputError`
return. -/
def base64StdDecode (s : String) : Option (List Nat) := b64DecodeChars s.data

/-! ## JSON for the two record shapes of `server.go`

`json.Marshal`/`json.Unmarshal` of `SessionState` (fields tagged `n` and
`return_url`) and `json.Marshal` of `UserInfo` (fields tagged `email` and
`groups`).  String escaping follows the Go encoder: `"`, `\`, the newline,
carriage-return and tab shortcuts, `\u00xx` for other control characters
and (HTML escaping being on by default) for `<`, `>`, `&`, and the line and
paragraph separators U+2028 and U+2029.  The unmarshalling side is a parser for the canonical shape the
marshaller emits; like `encoding/json` it fails on data that is not valid
JSON. -/

/-- Lowercase hexadecimal digit, as the Go encoder uses in `\u00xx`. -/
def hexDigit (n : Nat) : Char :=
  if n < 10 then Char.ofNat (48 + n) else Char.ofNat (87 + n)

/-- Value of one hexadecimal digit character. -/
def hexVal (c : Char) : Option Nat :=
  if '0' ≤ c ∧ c ≤ '9' then some (c.toNat - 48)
  else if 'a' ≤ c ∧ c ≤ 'f' then some (c.toNat - 87)
  else if 'A' ≤ c ∧ c ≤ 'F' then some (c.toNat - 55)
  else none

/-- Escaping of one character inside a JSON string, as the Go encoder with
default HTML escaping performs it. -/
def escapeJSONChar (c : Char) : List Char :=
  if c = '"' then ['\\', '"']
  else if c = '\\' then ['\\', '\\']
  else if c = '\n' then ['\\', 'n']
  else if c = '\r' then ['\\', 'r']
  else if c = '\t' then ['\\', 't']
  else if c.toNat < 0x20 ∨ c = '<' ∨ c = '>' ∨ c = '&' then
    ['\\', 'u', '0', '0', hexDigit (c.toNat / 16), hexDigit (c.toNat % 16)]
  else if c.toNat = 0x2028 ∨ c.toNat = 0x2029 then
    ['\\', 'u', '2', '0', '2', hexDigit (c.toNat % 16)]
  else [c]

def escapeJSONChars : List Char → List Char
  | [] => []
  | c :: cs => escapeJSONChar c ++ escapeJSONChars cs

def consResult (c : Char) : Option (List Char × List Char) → Option (List Char × List Char)
  | some (cs, r) => some (c :: cs, r)
  | none => none

/-- Parser for the body of a JSON string (after the opening quote), up to and
including the closing quote: the decoded characters and the remaining input.
Fails on unescaped control characters, bad escapes, bad hex and surrogate
code points, as the decoding of well-formed input never meets those. -/
def parseJSONStringBody : List Char → Option (List Char × List Char)
  | [] => none
  | c :: rest =>
    if c = '"' then some ([], rest)
    else if c = '\\' then
      match rest with
      | [] => none
      | e :: rest2 =>
        if e = '"' ∨ e = '\\' ∨ e = '/' then consResult e (parseJSONStringBody rest2)
        else if e = 'n' then consResult '\n' (parseJSONStringBody rest2)
        else if e = 'r' then consResult '\r' (parseJSONStringBody rest2)
        else if e = 't' then consResult '\t' (parseJSONStringBody rest2)
        else if e = 'b' then consResult (Char.ofNat 8) (parseJSONStringBody rest2)
        else if e = 'f' then consResult (Char.ofNat 12) (parseJSONStringBody rest2)
        else if e = 'u' then
          match rest2 with
          | h1 :: h2 :: h3 :: h4 :: rest3 =>
            match hexVal h1, hexVal h2, hexVal h3, hexVal h4 with
            | some v1, some v2, some v3, some v4 =>
              if v1 * 4096 + v2 * 256 + v3 * 16 + v4 < 0xD800 ∨
                  0xE000 ≤ v1 * 4096 + v2 * 256 + v3 * 16 + v4 then
                consResult (Char.ofNat (v1 * 4096 + v2 * 256 + v3 * 16 + v4))
                  (parseJSONStringBody rest3)
              else none
            | _, _, _, _ => none
          | _ => none
        else none
    else if c.toNat < 0x20 then none
    else consResult c (parseJSONStringBody rest)

/-- The session state of `server.go`: nonce and return URL, with JSON field
tags `n` and `return_url`. -/
structure SessionState where
  Nonce : String
  ReturnURL : String
deriving DecidableEq

def jsonKeyN : List Char := ['\x7b', '"', 'n', '"', ':', '"']

def jsonKeyReturnURL : List Char :=
  [',', '"', 'r', 'e', 't', 'u', 'r', 'n', '_', 'u', 'r', 'l', '"', ':', '"']

/-- `json.Marshal` of a `SessionState`, at the character level: the object
with keys `n` and `return_url` in declaration order and no spacing, exactly
as `encoding/json` emits it. -/
def marshalSessionStateChars (st : SessionState) : List Char :=
  jsonKeyN ++ (escapeJSONChars st.Nonce.data ++
    ('"' :: (jsonKeyReturnURL ++ (escapeJSONChars st.ReturnURL.data ++ ['"', '\x7d']))))

/-- `json.Marshal` of a `SessionState`, as a string. -/
def marshalSessionState (st : SessionState) : String := String.mk (marshalSessionStateChars st)

/-- Strips an expected literal character prefix from the input, yielding the
remainder, or fails. -/
def dropLit : List Char → List Char → Option (List Char)
  | [], input => some input
  | _ :: _, [] => none
  | p :: ps, c :: cs => if c = p then dropLit ps cs else none

/-- `json.Unmarshal` into a `SessionState`: parses the canonical object shape
the marshaller emits and fails on anything that is not valid JSON of that
shape. -/
def parseSessionStateChars (cs : List Char) : Option SessionState :=
  match dropLit jsonKeyN cs with
  | none => none
  | some rest =>
    match parseJSONStringBody rest with
    | none => none
    | some (nonce, r1) =>
      match dropLit jsonKeyReturnURL r1 with
      | none => none
      | some r2 =>
        match parseJSONStringBody r2 with
        | none => none
        | some (url, r3) =>
          if r3 = ['\x7d'] then some ⟨String.mk nonce, String.mk url⟩ else none

/-- `json.Unmarshal` of session-state bytes, as `Callback` performs it after
base64 decoding. -/
def jsonUnmarshalSessionState (bs : List Nat) : Option SessionState :=
  match utf8DecodeChars bs with
  | some cs => parseSessionStateChars cs
  | none => none

/-- State encoding as `startAuthFlow` performs it: JSON then standard
base64. -/
def encodeState (st : SessionState) : String :=
  base64StdEncode (utf8Encode (marshalSessionState st))

/-- State decoding as `Callback` performs it: standard base64, then JSON. -/
def decodeState (s : String) : Option SessionState :=
  match base64StdDecode s with
  | some bs => jsonUnmarshalSessionState bs
  | none => none

/-- The user-info response record of `server.go` (`UserInfo` in the source;
`Email` tagged `email`, `Groups` tagged `groups`).  A `none` groups field is
the nil Go slice, which `json.Marshal` renders as `null`. -/
structure UserInfoJSON where
  Email : String
  Groups : Option (List String)
deriving DecidableEq

/-- A JSON string literal with Go escaping. -/
def quoteJSONString (s : String) : String :=
  String.mk ('"' :: (escapeJSONChars s.data ++ ['"']))

/-- `json.Marshal` of a `[]string` value: `null` for the nil slice. -/
def marshalStringList : Option (List String) → String
  | none => "null"
  | some [] => "[]"
  | some (g :: gs) =>
    "[" ++ quoteJSONString g ++
      String.join (gs.map fun x => "," ++ quoteJSONString x) ++ "]"

/-- `json.Marshal` of the user-info record, in struct field order. -/
def marshalUserInfo (ui : UserInfoJSON) : String :=
  "\x7b\"email\":" ++ quoteJSONString ui.Email ++ ",\"groups\":" ++
    marshalStringList ui.Groups ++ "\x7d"

/-! ## SHA-256 and unpadded base64url

The PKCE code challenge is base64url-no-padding(SHA-256(verifier)).
Arithmetic is on `Nat` with explicit reduction modulo 2^32. -/

def sha256K : List Nat :=
  [1116352408, 1899447441, 3049323471, 3921009573, 961987163, 1508970993,
   2453635748, 2870763221, 3624381080, 310598401, 607225278, 1426881987,
   1925078388, 2162078206, 2614888103, 3248222580, 3835390401, 4022224774,
   264347078, 604807628, 770255983, 1249150122, 1555081692, 1996064986,
   2554220882, 2821834349, 2952996808, 3210313671, 3336571891, 3584528711,
   113926993, 338241895, 666307205, 773529912, 1294757372, 1396182291,
   1695183700, 1986661051, 2177026350, 2456956037, 2730485921, 2820302411,
   3259730800, 3345764771, 3516065817, 3600352804, 4094571909, 275423344,
   430227734, 506948616, 659060556, 883997877, 958139571, 1322822218,
   1537002063, 1747873779, 1955562222, 2024104815, 2227730452, 2361852424,
   2428436474, 2756734187, 3204031479, 3329325298]

def sha256H0 : List Nat :=
  [1779033703, 3144134277, 1013904242, 2773480762, 1359893119, 2600822924,
   528734635, 1541459225]

/-- Rotate a 32-bit word right by `n` bits. -/
def rotr32 (n x : Nat) : Nat := (x / 2 ^ n + x % 2 ^ n * 2 ^ (32 - n)) % 2 ^ 32

def sha256SmallSigma0 (x : Nat) : Nat := rotr32 7 x ^^^ rotr32 18 x ^^^ x / 2 ^ 3

def sha256SmallSigma1 (x : Nat) : Nat := rotr32 17 x ^^^ rotr32 19 x ^^^ x / 2 ^ 10

/-- One step of the message-schedule extension: appends word `w[t]` computed
from the last 16 words. -/
def sha256ScheduleStep (w : List Nat) : List Nat :=
  w ++ [(sha256SmallSigma1 (w.getD (w.length - 2) 0) + w.getD (w.length - 7) 0 +
    sha256SmallSigma0 (w.getD (w.length - 15) 0) + w.getD (w.length - 16) 0) % 2 ^ 32]

/-- The 64-word message schedule from the 16 words of one block. -/
def sha256Schedule (block : List Nat) : List Nat := Nat.repeat sha256ScheduleStep 48 block

/-- One compression round on the eight-word working state. -/
def sha256Round (kw : Nat × Nat) (st : List Nat) : List Nat :=
  match st with
  | [a, b, c, d, e, f, g, h] =>
    let s1 := rotr32 6 e ^^^ rotr32 11 e ^^^ rotr32 25 e
    let ch := (e &&& f) ^^^ ((e ^^^ 0xffffffff) &&& g)
    let t1 := (h + s1 + ch + kw.1 + kw.2) % 2 ^ 32
    let s0 := rotr32 2 a ^^^ rotr32 13 a ^^^ rotr32 22 a
    let mj := (a &&& b) ^^^ (a &&& c) ^^^ (b &&& c)
    let t2 := (s0 + mj) % 2 ^ 32
    [(t1 + t2) % 2 ^ 32, a, b, c, (d + t1) % 2 ^ 32, e, f, g]
  | _ => st

/-- Compression of one 64-byte block into the running hash. -/
def sha256Compress (h : List Nat) (block : List Nat) : List Nat :=
  let st := ((sha256K.zip (sha256Schedule block)).foldl (fun s kw => sha256Round kw s) h)
  (h.zip st).map fun p => (p.1 + p.2) % 2 ^ 32

/-- Big-endian packing of bytes into 32-bit words. -/
def bytesToWords32 : List Nat → List Nat
  | b0 :: b1 :: b2 :: b3 :: rest =>
    (b0 * 16777216 + b1 * 65536 + b2 * 256 + b3) :: bytesToWords32 rest
  | _ => []

/-- Folds the padded message, 64 bytes at a time, through the compression
function. -/
def sha256Blocks (h : List Nat) : List Nat → List Nat
  | [] => h
  | b :: bs => sha256Blocks (sha256Compress h (bytesToWords32 ((b :: bs).take 64))) (List.drop 64 (b :: bs))
termination_by bs => bs.length
decreasing_by simp [List.length_drop]; omega

/-- Big-endian bytes of a 64-bit length value. -/
def beBytes8 (n : Nat) : List Nat :=
  [n / 2 ^ 56 % 256, n / 2 ^ 48 % 256, n / 2 ^ 40 % 256, n / 2 ^ 32 % 256,
   n / 2 ^ 24 % 256, n / 2 ^ 16 % 256, n / 2 ^ 8 % 256, n % 256]

/-- SHA-256 of a byte list, as a list of 32 bytes. -/
def sha256 (msg : List Nat) : List Nat :=
  let padded := msg ++ 0x80 :: List.replicate ((119 - msg.length % 64) % 64) 0 ++
    beBytes8 (msg.length * 8)
  (sha256Blocks sha256H0 padded).foldr
    (fun w acc => w / 16777216 % 256 :: w / 65536 % 256 :: w / 256 % 256 :: w % 256 :: acc) []

/-- The base64url alphabet (RFC 4648 section 5). -/
def b64urlAlphabet : List Char :=
  ['A', 'B', 'C', 'D', 'E', 'F', 'G', 'H', 'I', 'J', 'K', 'L', 'M',
   'N', 'O', 'P', 'Q', 'R', 'S', 'T', 'U', 'V', 'W', 'X', 'Y', 'Z',
   'a', 'b', 'c', 'd', 'e', 'f', 'g', 'h', 'i', 'j', 'k', 'l', 'm',
   'n', 'o', 'p', 'q', 'r', 's', 't', 'u', 'v', 'w', 'x', 'y', 'z',
   '0', '1', '2', '3', '4', '5', '6', '7', '8', '9', '-', '_']

def b64urlChar (n : Nat) : Char := b64urlAlphabet.getD n 'A'

/-- base64url encoding without padding, as `base64.RawURLEncoding` produces. -/
def b64urlNoPad : List Nat → List Char
  | [] => []
  | [b0] => [b64urlChar (b0 / 4), b64urlChar (b0 % 4 * 16)]
  | [b0, b1] => [b64urlChar (b0 / 4), b64urlChar (b0 % 4 * 16 + b1 / 16), b64urlChar (b1 % 16 * 4)]
  | b0 :: b1 :: b2 :: rest =>
    b64urlChar (b0 / 4) :: b64urlChar (b0 % 4 * 16 + b1 / 16) ::
      b64urlChar (b1 % 16 * 4 + b2 / 64) :: b64urlChar (b2 % 64) :: b64urlNoPad rest

/-! ## Data model of the auth package

Constants, requests, responses and the server record, embedding
`pkg/server/auth/auth.go` and `pkg/server/auth/server.go`. -/

/-- The cookie names and scope constants of `auth.go`. -/
def StateCookieName : String := "state"

def IDTokenCookieName : String := "id_token"

def RefreshTokenCookieName : String := "refresh_token"

def scopeProfile : String := "profile"

def scopeEmail : String := "email"

def scopeGroups : String := "groups"

def ScopeOpenID : String := "openid"

def ScopeOfflineAccess : String := "offline_access"

/-- `UserPrincipal` of `auth.go`. -/
structure UserPrincipal where
  ID : String
  Groups : List String
deriving DecidableEq

/-- A set cookie, as `createCookie`/`clearCookie` of `server.go` build it.
The `Expires` stamp is abstracted to the `cleared` flag: `false` stands for
`now + TokenDuration`, `true` for the epoch. -/
structure CookieRec where
  name : String
  value : String
  path : String
  httpOnly : Bool
  cleared : Bool
deriving DecidableEq

/-- `createCookie` of `server.go`: path `/`, future expiry, HttpOnly. -/
def createCookie (name value : String) : CookieRec := ⟨name, value, "/", true, false⟩

/-- `clearCookie` of `server.go`: empty value, epoch expiry, no HttpOnly. -/
def clearCookie (name : String) : CookieRec := ⟨name, "", "/", false, true⟩

/-- `LoginRequest` of `server.go`. -/
structure LoginRequest where
  Password : String
deriving DecidableEq

/-- The JWT claims the local token verifier returns; only the subject is
read. -/
structure TokenClaims where
  Subject : String
deriving DecidableEq

/-- The relevant parts of the `oauth2.Token` an exchange returns:
`Extra("id_token")` when it is a string, and the refresh token (empty when
the provider returned none). -/
structure OIDCToken where
  idToken : Option String
  RefreshToken : String
deriving DecidableEq

/-- `oauth2.Endpoint` of a provider. -/
structure ProviderEndpoint where
  AuthURL : String
  TokenURL : String
deriving DecidableEq

/-- The `oidc.Provider` with the behaviour of its network-facing methods as
oracles: the outcome of the token exchange keyed by the authorization code,
the ID-token verifier outcome, and the user-info endpoint outcome (the email
of the returned profile) keyed by the access token. -/
structure OIDCProvider where
  Endpoint : ProviderEndpoint
  exchange : String → Option OIDCToken
  verifyIDToken : String → Bool
  userInfoEmail : String → Option String

/-- `OIDCConfig` of `server.go` (`TokenDuration` only feeds cookie expiry,
which the cookie model abstracts). -/
structure OIDCConfig where
  IssuerURL : String
  ClientID : String
  ClientSecret : String
  RedirectURL : String
deriving DecidableEq

/-- `AuthConfig` of `server.go` embeds `OIDCConfig`. -/
structure AuthConfig where
  oidc : OIDCConfig
deriving DecidableEq

/-- `AuthServer` of `server.go`.  `provider` is nil (`none`) exactly when no
issuer was configured; the token signer/verifier, the Kubernetes secret
read, bcrypt and `crypto/rand` are oracles. -/
structure AuthServer where
  config : AuthConfig
  provider : Option OIDCProvider
  /-- `tokenSignerVerifier.Verify`: the claims, or `none` for a verification
  error. -/
  verifyLocal : String → Option TokenClaims
  /-- `tokenSignerVerifier.Sign`: the signed token, or `none` for a signing
  error. -/
  signLocal : Option String
  /-- The data map of the `wego-system/admin-password-hash` secret, or
  `none` when the `kubernetesClient.Get` call fails. -/
  adminSecretData : Option (List (String × String))
  /-- `bcrypt.CompareHashAndPassword hash password` succeeding. -/
  bcryptOk : String → String → Bool
  /-- The outcome of `generateNonce`: `none` when `crypto/rand` fails. -/
  nonce : Option String

/-- An HTTP request as the handlers consume it: the method, the URL path,
the form values the handlers read, the cookies, the decoded JSON body (an
oracle for `json.Decode` into `LoginRequest`), the `return_url` query value,
`URL.String()`, and the principal slot of the request context. -/
structure Request where
  Method : String
  Path : String
  FormError : String
  FormCode : String
  FormState : String
  Cookies : List (String × String)
  JSONBody : Option LoginRequest
  QueryReturnURL : String
  URLString : String
  Ctx : Option UserPrincipal

/-- `r.Cookie name`: the first cookie with that name, an error (`none`) when
absent. -/
def getCookie (r : Request) (name : String) : Option String :=
  (r.Cookies.find? fun c => c.1 == name).map (·.2)

/-- An HTTP response as the observable outcome of a handler: status, the
`Allow` header when set, the cookies set in order, the redirect target, the
body where recorded, and whether the handler dereferenced the nil provider
(a Go panic instead of a response). -/
structure HttpResponse where
  status : Nat
  allow : Option String
  cookies : List CookieRec
  location : Option String
  body : Option String
  panicked : Bool
deriving DecidableEq

def mkStatus (s : Nat) : HttpResponse := ⟨s, none, [], none, none, false⟩

def nilProviderPanic : HttpResponse := ⟨0, none, [], none, none, true⟩

/-! ## Handlers of `server.go` -/

/-- `contains` of `server.go`. -/
def contains : List String → String → Bool
  | [], _ => false
  | v :: rest, s => if v = s then true else contains rest s

/-- `oidcEnabled` of `server.go`. -/
def oidcEnabled (s : AuthServer) : Bool := s.config.oidc.IssuerURL ≠ ""

/-- The scope list `oauth2Config` builds: `openid`, `offline_access`,
`email` and `groups` are appended, in that order, when absent. -/
def oauth2ConfigScopes (scopes : List String) : List String :=
  let scopes := if contains scopes ScopeOpenID then scopes else scopes ++ [ScopeOpenID]
  let scopes := if contains scopes ScopeOfflineAccess then scopes
    else scopes ++ [ScopeOfflineAccess]
  let scopes := if contains scopes scopeEmail then scopes else scopes ++ [scopeEmail]
  if contains scopes scopeGroups then scopes else scopes ++ [scopeGroups]

/-- `oauth2.Config` as `oauth2Config` of `server.go` builds it.  The caller
must supply the provider, because `s.provider.Endpoint()` dereferences the
nil provider otherwise. -/
structure OAuth2Config where
  ClientID : String
  ClientSecret : String
  Endpoint : ProviderEndpoint
  RedirectURL : String
  Scopes : List String
deriving DecidableEq

def oauth2Config (s : AuthServer) (p : OIDCProvider) (scopes : List String) : OAuth2Config :=
  ⟨s.config.oidc.ClientID, s.config.oidc.ClientSecret, p.Endpoint, s.config.oidc.RedirectURL,
    oauth2ConfigScopes scopes⟩

/-- The authorization URL `oauth2.Config.AuthCodeURL` builds, as a
structured value: the endpoint, `client_id`, `redirect_uri`, the scope list
(space-joined in the rendered URL) and `state`. -/
structure AuthCodeURL where
  Endpoint : String
  ClientID : String
  RedirectURL : String
  Scopes : List String
  State : String
deriving DecidableEq

def authCodeURL (c : OAuth2Config) (state : String) : AuthCodeURL :=
  ⟨c.Endpoint.AuthURL, c.ClientID, c.RedirectURL, c.Scopes, state⟩

/-- The result of `Callback`: the response plus an instrumentation flag set
exactly when the token-exchange call to the provider is made. -/
structure CallbackResult where
  resp : HttpResponse
  exchangeCalled : Bool
deriving DecidableEq

/-- `Callback` of `server.go` (lines 146-242), step for step: method check,
`error` form value, empty `code`, missing `state` cookie, state equality,
base64 decode, JSON unmarshal, token exchange, `id_token` extraction,
ID-token verification, then cookies and the 303 redirect. -/
def Callback (s : AuthServer) (r : Request) : CallbackResult :=
  if r.Method ≠ "GET" then ⟨⟨405, some "GET", [], none, none, false⟩, false⟩
  else if r.FormError ≠ "" then ⟨mkStatus 400, false⟩
  else if r.FormCode = "" then ⟨mkStatus 400, false⟩
  else
    match getCookie r StateCookieName with
    | none => ⟨mkStatus 400, false⟩
    | some cookieValue =>
      if r.FormState ≠ cookieValue then ⟨mkStatus 400, false⟩
      else
        match base64StdDecode cookieValue with
        | none => ⟨mkStatus 400, false⟩
        | some b =>
          match jsonUnmarshalSessionState b with
          | none => ⟨mkStatus 400, false⟩
          | some state =>
            match s.provider with
            | none => ⟨nilProviderPanic, false⟩
            | some p =>
              match p.exchange r.FormCode with
              | none => ⟨mkStatus 500, true⟩
              | some token =>
                match token.idToken with
                | none =>
                  ⟨⟨500, none, [], none, some "no id_token in token response\n", false⟩, true⟩
                | some rawIDToken =>
                  if p.verifyIDToken rawIDToken = false then ⟨mkStatus 500, true⟩
                  else
                    ⟨⟨303, none,
                      createCookie IDTokenCookieName rawIDToken ::
                        ((if token.RefreshToken ≠ "" then
                            [createCookie RefreshTokenCookieName token.RefreshToken]
                          else []) ++ [clearCookie StateCookieName]),
                      some state.ReturnURL, none, false⟩, true⟩

/-- `SignIn` of `server.go` (lines 244-293). -/
def SignIn (s : AuthServer) (r : Request) : HttpResponse :=
  if r.Method ≠ "POST" then ⟨405, some "POST", [], none, none, false⟩
  else
    match r.JSONBody with
    | none => ⟨400, none, [], none, some "Failed to read request body.\n", false⟩
    | some loginRequest =>
      match s.adminSecretData with
      | none => ⟨400, none, [], none, some "Please ensure that a password has been set.\n", false⟩
      | some data =>
        let hash := ((data.find? fun kv => kv.1 == "password").map (·.2)).getD ""
        if s.bcryptOk hash loginRequest.Password = false then mkStatus 401
        else
          match s.signLocal with
          | none => mkStatus 500
          | some signed => ⟨200, none, [createCookie IDTokenCookieName signed], none, none, false⟩

/-- `UserInfo` of `server.go` (lines 299-339); named after the handler
method, the response record is `UserInfoJSON`. -/
def UserInfo (s : AuthServer) (r : Request) : HttpResponse :=
  if r.Method ≠ "GET" then ⟨405, some "GET", [], none, none, false⟩
  else
    match getCookie r IDTokenCookieName with
    | none => mkStatus 400
    | some cookieValue =>
      match s.verifyLocal cookieValue with
      | some claims =>
        ⟨200, none, [], none, some (marshalUserInfo ⟨claims.Subject, none⟩), false⟩
      | none =>
        match s.provider with
        | none => nilProviderPanic
        | some p =>
          match p.userInfoEmail cookieValue with
          | none => ⟨401, none, [], none, none, false⟩
          | some email => ⟨200, none, [], none, some (marshalUserInfo ⟨email, none⟩), false⟩

/-- The response of the flow-start path: status, cookies, the structured
authorization redirect, the body where constant, and the nil-provider panic
flag. -/
structure FlowResponse where
  status : Nat
  cookies : List CookieRec
  authRedirect : Option AuthCodeURL
  body : Option String
  panicked : Bool
deriving DecidableEq

/-- `startAuthFlow` of `server.go` (lines 354-387): nonce, return URL from
the `return_url` query value (default: the request URL), session-state
encoding, the authorize URL for scopes `[profile]`, the state cookie and the
303 redirect.  `json.Marshal` of the state cannot fail, so only the nonce
error path yields 500. -/
def startAuthFlow (s : AuthServer) (r : Request) : FlowResponse :=
  match s.nonce with
  | none => ⟨500, [], none, none, false⟩
  | some nonce =>
    let returnUrl := if r.QueryReturnURL = "" then r.URLString else r.QueryReturnURL
    let state := encodeState ⟨nonce, returnUrl⟩
    match s.provider with
    | none => ⟨0, [], none, none, true⟩
    | some p =>
      ⟨303, [createCookie StateCookieName state],
        some (authCodeURL (oauth2Config s p [scopeProfile]) state), none, false⟩

/-- `OAuth2Flow` of `server.go` (lines 135-144). -/
def OAuth2Flow (s : AuthServer) (r : Request) : FlowResponse :=
  if oidcEnabled s = false then ⟨400, [], none, some "oidc provider not configured\n", false⟩
  else startAuthFlow s r

/-- `NewAuthServer` of `server.go` (lines 62-89): provider discovery only
when an issuer URL is configured (its failure fails construction), then the
HMAC secret generation (whose failure also fails construction).
`discoverProvider` is the `oidc.NewProvider` oracle and `randSecretOk` the
`crypto/rand` outcome. -/
def NewAuthServer (config : AuthConfig) (discoverProvider : String → Option OIDCProvider)
    (randSecretOk : Bool) (verifyLocal : String → Option TokenClaims) (signLocal : Option String)
    (adminSecretData : Option (List (String × String))) (bcryptOk : String → String → Bool)
    (nonce : Option String) : Option AuthServer :=
  if config.oidc.IssuerURL = "" then
    if randSecretOk then
      some ⟨config, none, verifyLocal, signLocal, adminSecretData, bcryptOk, nonce⟩
    else none
  else
    match discoverProvider config.oidc.IssuerURL with
    | none => none
    | some p =>
      if randSecretOk then
        some ⟨config, some p, verifyLocal, signLocal, adminSecretData, bcryptOk, nonce⟩
      else none

/-! ## Middleware of `auth.go` -/

/-- `Principal` of `auth.go`: reads the principal slot of the context. -/
def Principal (ctx : Option UserPrincipal) : Option UserPrincipal := ctx

/-- `WithPrincipal` of `auth.go`: sets the principal slot of the context. -/
def WithPrincipal (_ctx : Option UserPrincipal) (p : UserPrincipal) : Option UserPrincipal :=
  some p

/-- `IsPublicRoute` of `auth.go`: exact string equality of the URL path
against each entry. -/
def IsPublicRoute : String → List String → Bool
  | _, [] => false
  | path, pr :: rest => if path = pr then true else IsPublicRoute path rest

/-- The observable outcome of the middleware: the wrapped handler invoked
with a request context, or a denial. -/
inductive APIAuthResult where
  | forwarded (ctx : Option UserPrincipal)
  | denied (status : Nat) (body : String)
deriving DecidableEq

/-- `WithAPIAuth` of `auth.go` (lines 65-93).  `multiPrincipal` is the
composite resolver `multi.Principal` built from the configured principal
getters (their implementations live outside the given sources); it yields
the principal (`none` for nil) and whether an error occurred. -/
def WithAPIAuth (multiPrincipal : Request → Option UserPrincipal × Bool)
    (publicRoutes : List String) (r : Request) : APIAuthResult :=
  if IsPublicRoute r.Path publicRoutes then .forwarded r.Ctx
  else
    match multiPrincipal r with
    | (some p, false) => .forwarded (WithPrincipal r.Ctx p)
    | (some _, true) => .denied 401 "Authentication required\n"
    | (none, _) => .denied 401 "Authentication required\n"

/-! ## PKCE code verifier and GitLab OAuth URLs

The implementations of `pkg/services/auth/internal` are present in the
repository only through their tests (`gitlab_test.go`), so these
definitions are modelled from the specification (sections 4.1 and 4.5). -/

/-- The RFC 7636 unreserved character set: letters, digits, `-`, `.`, `_`,
`~` (66 characters). -/
def rfc7636Unreserved : List Char :=
  ['A', 'B', 'C', 'D', 'E', 'F', 'G', 'H', 'I', 'J', 'K', 'L', 'M',
   'N', 'O', 'P', 'Q', 'R', 'S', 'T', 'U', 'V', 'W', 'X', 'Y', 'Z',
   'a', 'b', 'c', 'd', 'e', 'f', 'g', 'h', 'i', 'j', 'k', 'l', 'm',
   'n', 'o', 'p', 'q', 'r', 's', 't', 'u', 'v', 'w', 'x', 'y', 'z',
   '0', '1', '2', '3', '4', '5', '6', '7', '8', '9', '-', '.', '_', '~']

inductive CodeVerifierError where
  | invalidRange
deriving DecidableEq

/-- A PKCE code verifier. -/
structure CodeVerifier where
  value : String
deriving DecidableEq

/-- Modelled from the spec: `NewCodeVerifier` of
`pkg/services/auth/internal` (the PKCE generator), whose implementation
file is not among the given sources.  Per spec section 4.1 it fails with an
`InvalidRange` error when `minLength > maxLength` or either bound falls
outside [43, 128]; otherwise the verifier length is drawn uniformly from
`[minLength, maxLength]` and every character from the RFC 7636 unreserved
set.  The secure random source is modelled by the `lenChoice` draw and the
per-position `charChoice` draws. -/
def NewCodeVerifier (minLength maxLength : Nat) (lenChoice : Nat) (charChoice : Nat → Nat) :
    Except CodeVerifierError CodeVerifier :=
  if minLength > maxLength ∨ minLength < 43 ∨ 128 < minLength ∨ maxLength < 43 ∨
      128 < maxLength then
    .error .invalidRange
  else
    let len := minLength + lenChoice % (maxLength - minLength + 1)
    .ok ⟨String.mk ((List.range len).map fun i => rfc7636Unreserved.getD (charChoice i % 66) 'A')⟩

/-- Modelled from the spec: `RawValue` returns the underlying verifier
string. -/
def RawValue (v : CodeVerifier) : String := v.value

/-- Modelled from the spec: `CodeChallenge` is the base64url-no-padding
encoding of SHA-256 over the raw verifier bytes. -/
def CodeChallenge (v : CodeVerifier) : String :=
  String.mk (b64urlNoPad (sha256 (utf8Encode v.value)))

/-- A parsed URL as the GitLab URL builders produce and the tests inspect
it: scheme, host, path and the query parameters. -/
structure GoURL where
  Scheme : String
  Host : String
  Path : String
  Query : List (String × String)
deriving DecidableEq

/-- First query parameter with the given key, as `url.Values.Get`. -/
def queryGet (u : GoURL) (key : String) : Option String :=
  (u.Query.find? fun kv => kv.1 == key).map (·.2)

/-- The error a failing URL parse surfaces as: spec section 4.5 assigns a
`URLParseError` to a malformed redirect URL. -/
inductive URLParseError where
  | malformedRedirectURL
deriving DecidableEq

/-- Modelled from the spec: the malformed-URL rejection of the redirect-URL
parse inside `GitlabAuthorizeUrl` (Go `url.Parse` fails on a URL containing
an ASCII control character). -/
def urlParseOk (s : String) : Bool :=
  s.data.all fun c => decide (0x20 ≤ c.toNat ∧ c.toNat ≠ 0x7F)

/-- Modelled from the spec: `GitlabAuthorizeUrl` of
`pkg/services/auth/internal` (implementation absent from the sources),
following spec section 4.5 and `gitlab_test.go`, whose fallible
`u, err := GitlabAuthorizeUrl ...` signature the `Except` return mirrors:
a malformed redirect URL yields a `URLParseError`; otherwise the URL has
host `gitlab.com`, path `/oauth/authorize`, and exactly the six parameters
`client_id`, `response_type=code`, the space-joined `scope`,
`code_challenge`, `code_challenge_method=S256` and `redirect_uri`.  The
client id is injected configuration, modelled as a parameter. -/
def GitlabAuthorizeUrl (gitlabClientId redirectURL : String) (scopes : List String)
    (v : CodeVerifier) : Except URLParseError GoURL :=
  if urlParseOk redirectURL = false then .error .malformedRedirectURL
  else
    .ok ⟨"https", "gitlab.com", "/oauth/authorize",
      [("client_id", gitlabClientId), ("response_type", "code"),
       ("scope", String.intercalate " " scopes), ("code_challenge", CodeChallenge v),
       ("code_challenge_method", "S256"), ("redirect_uri", redirectURL)]⟩

/-- Modelled from the spec: `GitlabTokenUrl` of
`pkg/services/auth/internal`, asserted by `gitlab_test.go` (which calls it
with no error return, `u := GitlabTokenUrl ...`): host `gitlab.com`, path
`/oauth/token`, and exactly the six parameters `client_id`, `redirect_uri`,
`grant_type=authorization_code`, `code_verifier` (the raw verifier), `code`
and `client_secret`. -/
def GitlabTokenUrl (gitlabClientId gitlabClientSecret redirectURL code : String)
    (v : CodeVerifier) : GoURL :=
  ⟨"https", "gitlab.com", "/oauth/token",
    [("client_id", gitlabClientId), ("redirect_uri", redirectURL),
     ("grant_type", "authorization_code"), ("code_verifier", RawValue v), ("code", code),
     ("client_secret", gitlabClientSecret)]⟩

/-! ## Specification-side definitions and concrete instances for the claims -/

/-- The `Callback` behaviour as the specification states it (section 4.6,
claim C3), written from the spec steps: non-GET 405 with `Allow: GET`; the
`error` form value, an empty `code`, a missing `state` cookie, a state
mismatch and a state decode failure (base64 or JSON, one step) each 400;
a failed exchange, a missing `id_token` and a failed verification each 500;
on success the `id_token` cookie holds the raw ID token, a `refresh_token`
cookie is set only when the exchange returned one, the `state` cookie is
cleared, and a 303 redirect targets the returnURL of the decoded session
state.  Compared with `Callback` by `Callback_follows_spec`. -/
def CallbackSpecified (p : OIDCProvider) (_s : AuthServer) (r : Request) : CallbackResult :=
  if r.Method ≠ "GET" then ⟨⟨405, some "GET", [], none, none, false⟩, false⟩
  else if r.FormError ≠ "" then ⟨mkStatus 400, false⟩
  else if r.FormCode = "" then ⟨mkStatus 400, false⟩
  else
    match getCookie r StateCookieName with
    | none => ⟨mkStatus 400, false⟩
    | some cookieValue =>
      if r.FormState ≠ cookieValue then ⟨mkStatus 400, false⟩
      else
        match decodeState cookieValue with
        | none => ⟨mkStatus 400, false⟩
        | some state =>
          match p.exchange r.FormCode with
          | none => ⟨mkStatus 500, true⟩
          | some token =>
            match token.idToken with
            | none => ⟨⟨500, none, [], none, some "no id_token in token response\n", false⟩, true⟩
            | some rawIDToken =>
              if p.verifyIDToken rawIDToken = false then ⟨mkStatus 500, true⟩
              else
                ⟨⟨303, none,
                  createCookie IDTokenCookieName rawIDToken ::
                    ((if token.RefreshToken ≠ "" then
                        [createCookie RefreshTokenCookieName token.RefreshToken]
                      else []) ++ [clearCookie StateCookieName]),
                  some state.ReturnURL, none, false⟩, true⟩

/-- The `SignIn` behaviour as the specification states it (section 4.6,
claim C4), amended with the 500 outcome for a failing token signature:
POST only (405 otherwise); JSON decode failure 400; missing
admin-password-hash secret 400; bcrypt mismatch 401; a signing failure 500;
on match the signed local token goes into the `id_token` cookie with 200 and
no refresh cookie.  Compared with `SignIn` by `SignIn_follows_spec`. -/
def SignInSpecified (s : AuthServer) (r : Request) : HttpResponse :=
  if r.Method ≠ "POST" then ⟨405, some "POST", [], none, none, false⟩
  else
    match r.JSONBody with
    | none => ⟨400, none, [], none, some "Failed to read request body.\n", false⟩
    | some loginRequest =>
      match s.adminSecretData with
      | none => ⟨400, none, [], none, some "Please ensure that a password has been set.\n", false⟩
      | some data =>
        let hash := ((data.find? fun kv => kv.1 == "password").map (·.2)).getD ""
        if s.bcryptOk hash loginRequest.Password = false then mkStatus 401
        else
          match s.signLocal with
          | none => mkStatus 500
          | some signed => ⟨200, none, [createCookie IDTokenCookieName signed], none, none, false⟩

/-- A configured-looking OIDC configuration for concrete instances. -/
def demoConfig : AuthConfig :=
  ⟨⟨"https://issuer.example", "client-id", "client-secret",
    "https://rp.example/oauth2/callback"⟩⟩

/-- A provider whose oracles all fail; enough for paths that never reach
them. -/
def demoProvider : OIDCProvider :=
  ⟨⟨"https://issuer.example/auth", "https://issuer.example/token"⟩,
    fun _ => none, fun _ => false, fun _ => none⟩

def c1Server : AuthServer :=
  ⟨demoConfig, some demoProvider, fun _ => none, none, none, fun _ _ => false, none⟩

/-- A POST callback request whose `state` form value differs from the
`state` cookie value. -/
def c1PostRequest : Request :=
  ⟨"POST", "/oauth2/callback", "", "code1", "xyz", [("state", "abc")], none, "",
    "/oauth2/callback", none⟩

/-- The same mismatching request over GET. -/
def c1GetRequest : Request :=
  ⟨"GET", "/oauth2/callback", "", "code1", "xyz", [("state", "abc")], none, "",
    "/oauth2/callback", none⟩

def c3Provider : OIDCProvider :=
  ⟨⟨"https://issuer.example/auth", "https://issuer.example/token"⟩,
    fun code => if code == "code1" then some ⟨some "rawtok", "refresh1"⟩ else none,
    fun t => t == "rawtok", fun _ => none⟩

def c3Server : AuthServer :=
  ⟨demoConfig, some c3Provider, fun _ => none, none, none, fun _ _ => false, none⟩

def c3Request : Request :=
  ⟨"GET", "/oauth2/callback", "", "code1", encodeState ⟨"nonce1", "https://rp.example/"⟩,
    [("state", encodeState ⟨"nonce1", "https://rp.example/"⟩)], none, "", "", none⟩

/-- A server whose stored admin hash matches password `pw1` but whose token
signer fails. -/
def c4Server : AuthServer :=
  ⟨demoConfig, none, fun _ => none, none, some [("password", "bcrypthash")],
    fun h pw => h == "bcrypthash" && pw == "pw1", none⟩

def c4Request : Request :=
  ⟨"POST", "/oauth2/sign_in", "", "", "", [], some ⟨"pw1"⟩, "", "", none⟩

/-- A server whose local verifier accepts `admintok` with subject `admin`. -/
def c5Server : AuthServer :=
  ⟨demoConfig, none, fun t => if t == "admintok" then some ⟨"admin"⟩ else none, none, none,
    fun _ _ => false, none⟩

def c5Request : Request :=
  ⟨"GET", "/oauth2/userinfo", "", "", "", [("id_token", "admintok")], none, "", "", none⟩

/-- A provider whose user-info endpoint knows the access token `tok`. -/
def c5Provider : OIDCProvider :=
  ⟨⟨"https://issuer.example/auth", "https://issuer.example/token"⟩,
    fun _ => none, fun _ => false,
    fun t => if t == "tok" then some "user@example.org" else none⟩

def c5ProvServer : AuthServer :=
  ⟨demoConfig, some c5Provider, fun _ => none, none, none, fun _ _ => false, none⟩

def c5ProvRequest : Request :=
  ⟨"GET", "/oauth2/userinfo", "", "", "", [("id_token", "tok")], none, "", "", none⟩

def c6Server : AuthServer :=
  ⟨demoConfig, some demoProvider, fun _ => none, none, none, fun _ _ => false, some "nonce0"⟩

def c6Request : Request :=
  ⟨"GET", "/oauth2", "", "", "", [], none, "", "/oauth2", none⟩

def c9Request : Request :=
  ⟨"GET", "/oauth2/callback", "", "code1", "%%%", [("state", "%%%")], none, "", "", none⟩

def c10Request : Request :=
  ⟨"GET", "/oauth2/userinfo", "", "", "", [("id_token", "sometok")], none, "", "", none⟩

theorem utf8EncodeChars_append (a b : List Char) :
    utf8EncodeChars (a ++ b) = utf8EncodeChars a ++ utf8EncodeChars b := by
  induction a with
  | nil => simp [utf8EncodeChars]
  | cons c cs ih => simp [utf8EncodeChars, ih]

theorem char_toNat_valid (c : Char) :
    c.toNat < 0xD800 ∨ (0xE000 ≤ c.toNat ∧ c.toNat < 0x110000) := by
  have e : c.toNat = c.val.toNat := rfl
  rcases c.valid with h | h
  · left; omega
  · right; omega

theorem utf8EncodeCharNat_lt_256 (n : Nat) (hv : n < 0x110000) :
    ∀ b ∈ utf8EncodeCharNat n, b < 256 := by
  intro b hb
  unfold utf8EncodeCharNat at hb
  by_cases h1 : n < 0x80
  · simp [h1] at hb; omega
  · by_cases h2 : n < 0x800
    · simp [h1, h2] at hb; omega
    · by_cases h3 : n < 0x10000
      · simp [h1, h2, h3] at hb; omega
      · simp [h1, h2, h3] at hb; omega

theorem utf8EncodeChars_lt_256 (cs : List Char) : ∀ b ∈ utf8EncodeChars cs, b < 256 := by
  induction cs with
  | nil => intro b hb; simp [utf8EncodeChars] at hb
  | cons c cs ih =>
    intro b hb
    simp only [utf8EncodeChars, List.mem_append] at hb
    rcases hb with hb | hb
    · have hv : c.toNat < 0x110000 := by
        rcases char_toNat_valid c with h | h
        · omega
        · omega
      exact utf8EncodeCharNat_lt_256 c.toNat hv b hb
    · exact ih b hb

theorem utf8EncodeCharNat_ne_nil (n : Nat) : utf8EncodeCharNat n ≠ [] := by
  unfold utf8EncodeCharNat
  by_cases h1 : n < 0x80
  · simp [h1]
  · by_cases h2 : n < 0x800
    · simp [h1, h2]
    · by_cases h3 : n < 0x10000
      · simp [h1, h2, h3]
      · simp [h1, h2, h3]

theorem utf8DecodeOne_encode (c : Char) (bs : List Nat) :
    utf8DecodeOne (utf8EncodeCharNat c.toNat ++ bs) = some (c, bs) := by
  have hval := char_toNat_valid c
  have hofnat : Char.ofNat c.toNat = c := Char.ofNat_toNat c
  set n := c.toNat with hn
  by_cases h1 : n < 0x80
  · have he : utf8EncodeCharNat n = [n] := by simp [utf8EncodeCharNat, h1]
    rw [he]
    simp only [List.cons_append, List.nil_append, utf8DecodeOne, if_pos h1, hofnat]
  · by_cases h2 : n < 0x800
    · have he : utf8EncodeCharNat n = [0xC0 + n / 64, 0x80 + n % 64] := by
        simp [utf8EncodeCharNat, h1, h2]
      rw [he]
      have c1 : ¬ (0xC0 + n / 64 < 0x80) := by omega
      have c2 : ¬ (0xC0 + n / 64 < 0xC2) := by omega
      have c3 : 0xC0 + n / 64 < 0xE0 := by omega
      have c4 : 0x80 ≤ 0x80 + n % 64 ∧ 0x80 + n % 64 < 0xC0 := by omega
      have cv : (0xC0 + n / 64 - 0xC0) * 64 + (0x80 + n % 64 - 0x80) = n := by omega
      simp only [List.cons_append, List.nil_append, utf8DecodeOne, c1, c2, c3, c4, cv,
        if_false, if_true, and_self, hofnat, if_neg, if_pos, not_false_eq_true]
    · by_cases h3 : n < 0x10000
      · have he : utf8EncodeCharNat n = [0xE0 + n / 4096, 0x80 + n / 64 % 64, 0x80 + n % 64] := by
          simp [utf8EncodeCharNat, h1, h2, h3]
        rw [he]
        have c1 : ¬ (0xE0 + n / 4096 < 0x80) := by omega
        have c2 : ¬ (0xE0 + n / 4096 < 0xC2) := by omega
        have c3 : ¬ (0xE0 + n / 4096 < 0xE0) := by omega
        have c4 : 0xE0 + n / 4096 < 0xF0 := by omega
        have c5 : (0x80 ≤ 0x80 + n / 64 % 64 ∧ 0x80 + n / 64 % 64 < 0xC0) ∧
            (0x80 ≤ 0x80 + n % 64 ∧ 0x80 + n % 64 < 0xC0) := by omega
        have cv : (0xE0 + n / 4096 - 0xE0) * 4096 + (0x80 + n / 64 % 64 - 0x80) * 64 +
            (0x80 + n % 64 - 0x80) = n := by omega
        have c6 : 0x800 ≤ (0xE0 + n / 4096 - 0xE0) * 4096 + (0x80 + n / 64 % 64 - 0x80) * 64 +
            (0x80 + n % 64 - 0x80) ∧
            ((0xE0 + n / 4096 - 0xE0) * 4096 + (0x80 + n / 64 % 64 - 0x80) * 64 +
              (0x80 + n % 64 - 0x80) < 0xD800 ∨
             0xE000 ≤ (0xE0 + n / 4096 - 0xE0) * 4096 + (0x80 + n / 64 % 64 - 0x80) * 64 +
              (0x80 + n % 64 - 0x80)) := by omega
        simp only [List.cons_append, List.nil_append, utf8DecodeOne, c1, c2, c3, c4, c5, c6, cv,
          if_false, if_true, and_self, hofnat, if_neg, if_pos, not_false_eq_true]
        rw [if_pos (show 0x800 ≤ n ∧ (n < 0xD800 ∨ 0xE000 ≤ n) by omega)]
      · have h4 : n < 0x110000 := by
          rcases hval with h | h
          · omega
          · omega
        have he : utf8EncodeCharNat n =
            [0xF0 + n / 262144, 0x80 + n / 4096 % 64, 0x80 + n / 64 % 64, 0x80 + n % 64] := by
          simp [utf8EncodeCharNat, h1, h2, h3]
        rw [he]
        have c1 : ¬ (0xF0 + n / 262144 < 0x80) := by omega
        have c2 : ¬ (0xF0 + n / 262144 < 0xC2) := by omega
        have c3 : ¬ (0xF0 + n / 262144 < 0xE0) := by omega
        have c4 : ¬ (0xF0 + n / 262144 < 0xF0) := by omega
        have c5 : 0xF0 + n / 262144 < 0xF5 := by omega
        have c6 : (0x80 ≤ 0x80 + n / 4096 % 64 ∧ 0x80 + n / 4096 % 64 < 0xC0) ∧
            (0x80 ≤ 0x80 + n / 64 % 64 ∧ 0x80 + n / 64 % 64 < 0xC0) ∧
            (0x80 ≤ 0x80 + n % 64 ∧ 0x80 + n % 64 < 0xC0) := by omega
        have cv : (0xF0 + n / 262144 - 0xF0) * 262144 + (0x80 + n / 4096 % 64 - 0x80) * 4096 +
            (0x80 + n / 64 % 64 - 0x80) * 64 + (0x80 + n % 64 - 0x80) = n := by omega
        have c7 : 0x10000 ≤ (0xF0 + n / 262144 - 0xF0) * 262144 +
              (0x80 + n / 4096 % 64 - 0x80) * 4096 +
              (0x80 + n / 64 % 64 - 0x80) * 64 + (0x80 + n % 64 - 0x80) ∧
            (0xF0 + n / 262144 - 0xF0) * 262144 + (0x80 + n / 4096 % 64 - 0x80) * 4096 +
              (0x80 + n / 64 % 64 - 0x80) * 64 + (0x80 + n % 64 - 0x80) < 0x110000 := by omega
        simp only [List.cons_append, List.nil_append, utf8DecodeOne, c1, c2, c3, c4, c5, c6, c7,
          cv, if_false, if_true, and_self, hofnat, if_neg, if_pos, not_false_eq_true]
        rw [if_pos (show 0x10000 ≤ n ∧ n < 0x110000 by omega)]

theorem utf8DecodeAux_encode (cs : List Char) :
    ∀ fuel : Nat, (utf8EncodeChars cs).length ≤ fuel →
      utf8DecodeAux fuel (utf8EncodeChars cs) = some cs := by
  induction cs with
  | nil =>
    intro fuel _
    cases fuel with
    | zero => rfl
    | succ f => rfl
  | cons c cs ih =>
    intro fuel hfuel
    have hne : utf8EncodeChars (c :: cs) ≠ [] := by
      show utf8EncodeCharNat c.toNat ++ utf8EncodeChars cs ≠ []
      simp [utf8EncodeCharNat_ne_nil c.toNat]
    have hstep : utf8DecodeOne (utf8EncodeChars (c :: cs)) = some (c, utf8EncodeChars cs) :=
      utf8DecodeOne_encode c (utf8EncodeChars cs)
    have h1 : 1 ≤ (utf8EncodeCharNat c.toNat).length :=
      List.length_pos.mpr (utf8EncodeCharNat_ne_nil c.toNat)
    have h2 : (utf8EncodeChars (c :: cs)).length =
        (utf8EncodeCharNat c.toNat).length + (utf8EncodeChars cs).length := by
      show (utf8EncodeCharNat c.toNat ++ utf8EncodeChars cs).length = _
      simp
    obtain ⟨b, t, hl⟩ : ∃ b t, utf8EncodeChars (c :: cs) = b :: t := by
      cases hx : utf8EncodeChars (c :: cs) with
      | nil => exact absurd hx hne
      | cons b t => exact ⟨b, t, rfl⟩
    cases fuel with
    | zero => exact absurd (List.length_eq_zero.mp (by omega)) hne
    | succ f =>
      have hlen : (utf8EncodeChars cs).length ≤ f := by omega
      rw [hl] at hstep ⊢
      simp only [utf8DecodeAux, hstep, ih f hlen]

/-- Decoding inverts encoding: UTF-8 round-trip at the character-list level. -/
theorem utf8DecodeChars_utf8EncodeChars (cs : List Char) :
    utf8DecodeChars (utf8EncodeChars cs) = some cs :=
  utf8DecodeAux_encode cs (utf8EncodeChars cs).length le_rfl

theorem b64Index_b64Char (n : Nat) (h : n < 64) : b64Index (b64Char n) = some n := by
  have hall : ((List.range 64).all fun m => b64Index (b64Char m) == some m) = true := by decide
  rw [List.all_eq_true] at hall
  have := hall n (List.mem_range.mpr h)
  exact eq_of_beq this

theorem b64Char_mem (n : Nat) : b64Char n ∈ b64Alphabet := by
  unfold b64Char
  by_cases h : n < b64Alphabet.length
  · rw [List.getD_eq_getElem b64Alphabet 'A' h]
    exact List.getElem_mem h
  · rw [List.getD_eq_default b64Alphabet 'A' (by omega)]
    decide

theorem b64Char_ne_eq (n : Nat) : b64Char n ≠ '=' := by
  intro h
  have hm := b64Char_mem n
  rw [h] at hm
  exact absurd hm (by decide)

/-- Decoding inverts encoding for byte lists (base64 round-trip). -/
theorem b64DecodeChars_b64EncodeBytes :
    ∀ bs : List Nat, (∀ b ∈ bs, b < 256) → b64DecodeChars (b64EncodeBytes bs) = some bs
  | [], _ => rfl
  | [b0], h => by
    have h0 : b0 < 256 := h b0 (by simp)
    have e0 : b64Index (b64Char (b0 / 4)) = some (b0 / 4) := b64Index_b64Char _ (by omega)
    have e1 : b64Index (b64Char (b0 % 4 * 16)) = some (b0 % 4 * 16) := b64Index_b64Char _ (by omega)
    simp only [b64EncodeBytes, b64DecodeChars, e0, e1, and_self, and_true, true_and, if_true]
    simp only [Option.some.injEq, List.cons.injEq, and_true]
    omega
  | [b0, b1], h => by
    have h0 : b0 < 256 := h b0 (by simp)
    have h1 : b1 < 256 := h b1 (by simp)
    have e0 : b64Index (b64Char (b0 / 4)) = some (b0 / 4) := b64Index_b64Char _ (by omega)
    have e1 : b64Index (b64Char (b0 % 4 * 16 + b1 / 16)) = some (b0 % 4 * 16 + b1 / 16) :=
      b64Index_b64Char _ (by omega)
    have e2 : b64Index (b64Char (b1 % 16 * 4)) = some (b1 % 16 * 4) := b64Index_b64Char _ (by omega)
    have hz : b64Char (b1 % 16 * 4) ≠ '=' := b64Char_ne_eq _
    simp only [b64EncodeBytes, b64DecodeChars, e0, e1, e2, hz, and_self, and_true, true_and,
      and_false, false_and, if_true, if_false]
    simp only [Option.some.injEq, List.cons.injEq, and_true]
    omega
  | b0 :: b1 :: b2 :: rest, h => by
    have h0 : b0 < 256 := h b0 (by simp)
    have h1 : b1 < 256 := h b1 (by simp)
    have h2 : b2 < 256 := h b2 (by simp)
    have e0 : b64Index (b64Char (b0 / 4)) = some (b0 / 4) := b64Index_b64Char _ (by omega)
    have e1 : b64Index (b64Char (b0 % 4 * 16 + b1 / 16)) = some (b0 % 4 * 16 + b1 / 16) :=
      b64Index_b64Char _ (by omega)
    have e2 : b64Index (b64Char (b1 % 16 * 4 + b2 / 64)) = some (b1 % 16 * 4 + b2 / 64) :=
      b64Index_b64Char _ (by omega)
    have e3 : b64Index (b64Char (b2 % 64)) = some (b2 % 64) := b64Index_b64Char _ (by omega)
    have ih : b64DecodeChars (b64EncodeBytes rest) = some rest :=
      b64DecodeChars_b64EncodeBytes rest (fun b hb => h b (by simp [hb]))
    have hz1 : b64Char (b1 % 16 * 4 + b2 / 64) ≠ '=' := b64Char_ne_eq _
    have hz2 : b64Char (b2 % 64) ≠ '=' := b64Char_ne_eq _
    simp only [b64EncodeBytes, b64DecodeChars, e0, e1, e2, e3, hz1, hz2, ih, and_self, and_true,
      true_and, and_false, false_and, if_true, if_false]
    simp only [Option.some.injEq, List.cons.injEq, and_true]
    omega

/-- String-level base64 round-trip, as `Callback` applies it to the value
`startAuthFlow` produced. -/
theorem base64StdDecode_base64StdEncode (bs : List Nat) (h : ∀ b ∈ bs, b < 256) :
    base64StdDecode (base64StdEncode bs) = some bs :=
  b64DecodeChars_b64EncodeBytes bs h

theorem hexVal_hexDigit (m : Nat) (h : m < 16) : hexVal (hexDigit m) = some m := by
  have hall : ((List.range 16).all fun k => hexVal (hexDigit k) == some k) = true := by decide
  rw [List.all_eq_true] at hall
  exact eq_of_beq (hall m (List.mem_range.mpr h))

theorem parse_close_quote (rest : List Char) :
    parseJSONStringBody ('"' :: rest) = some ([], rest) := by
  conv_lhs => unfold parseJSONStringBody
  simp

theorem parse_esc_quote (rest : List Char) :
    parseJSONStringBody ('\\' :: '"' :: rest) = consResult '"' (parseJSONStringBody rest) := by
  conv_lhs => unfold parseJSONStringBody
  simp

theorem parse_esc_backslash (rest : List Char) :
    parseJSONStringBody ('\\' :: '\\' :: rest) = consResult '\\' (parseJSONStringBody rest) := by
  conv_lhs => unfold parseJSONStringBody
  simp

theorem parse_esc_n (rest : List Char) :
    parseJSONStringBody ('\\' :: 'n' :: rest) = consResult '\n' (parseJSONStringBody rest) := by
  conv_lhs => unfold parseJSONStringBody
  simp

theorem parse_esc_r (rest : List Char) :
    parseJSONStringBody ('\\' :: 'r' :: rest) = consResult '\r' (parseJSONStringBody rest) := by
  conv_lhs => unfold parseJSONStringBody
  simp

theorem parse_esc_t (rest : List Char) :
    parseJSONStringBody ('\\' :: 't' :: rest) = consResult '\t' (parseJSONStringBody rest) := by
  conv_lhs => unfold parseJSONStringBody
  simp

theorem parse_esc_u (h1 h2 h3 h4 : Char) (rest : List Char) :
    parseJSONStringBody ('\\' :: 'u' :: h1 :: h2 :: h3 :: h4 :: rest) =
      match hexVal h1, hexVal h2, hexVal h3, hexVal h4 with
      | some v1, some v2, some v3, some v4 =>
        if v1 * 4096 + v2 * 256 + v3 * 16 + v4 < 0xD800 ∨
            0xE000 ≤ v1 * 4096 + v2 * 256 + v3 * 16 + v4 then
          consResult (Char.ofNat (v1 * 4096 + v2 * 256 + v3 * 16 + v4))
            (parseJSONStringBody rest)
        else none
      | _, _, _, _ => none := by
  conv_lhs => unfold parseJSONStringBody
  simp

theorem parse_verbatim (c : Char) (rest : List Char) (hq : c ≠ '"') (hb : c ≠ '\\')
    (hctl : ¬ c.toNat < 0x20) :
    parseJSONStringBody (c :: rest) = consResult c (parseJSONStringBody rest) := by
  conv_lhs => unfold parseJSONStringBody
  simp [hq, hb, hctl]

/-- Parsing inverts escaping: the JSON string-body round-trip. -/
theorem parseJSONStringBody_escape (cs : List Char) :
    ∀ tail : List Char,
      parseJSONStringBody (escapeJSONChars cs ++ '"' :: tail) = some (cs, tail) := by
  induction cs with
  | nil =>
    intro tail
    show parseJSONStringBody ('"' :: tail) = some ([], tail)
    exact parse_close_quote tail
  | cons c cs ih =>
    intro tail
    show parseJSONStringBody ((escapeJSONChar c ++ escapeJSONChars cs) ++ '"' :: tail) = _
    rw [List.append_assoc]
    by_cases hq : c = '"'
    · subst hq
      have he : escapeJSONChar '"' = ['\\', '"'] := by simp [escapeJSONChar]
      rw [he]
      simp only [List.cons_append, List.nil_append]
      rw [parse_esc_quote, ih tail]
      rfl
    · by_cases hb : c = '\\'
      · subst hb
        have he : escapeJSONChar '\\' = ['\\', '\\'] := by simp [escapeJSONChar]
        rw [he]
        simp only [List.cons_append, List.nil_append]
        rw [parse_esc_backslash, ih tail]
        rfl
      · by_cases hn : c = '\n'
        · subst hn
          have he : escapeJSONChar '\n' = ['\\', 'n'] := by simp [escapeJSONChar]
          rw [he]
          simp only [List.cons_append, List.nil_append]
          rw [parse_esc_n, ih tail]
          rfl
        · by_cases hr : c = '\r'
          · subst hr
            have he : escapeJSONChar '\r' = ['\\', 'r'] := by simp [escapeJSONChar]
            rw [he]
            simp only [List.cons_append, List.nil_append]
            rw [parse_esc_r, ih tail]
            rfl
          · by_cases ht : c = '\t'
            · subst ht
              have he : escapeJSONChar '\t' = ['\\', 't'] := by simp [escapeJSONChar]
              rw [he]
              simp only [List.cons_append, List.nil_append]
              rw [parse_esc_t, ih tail]
              rfl
            · by_cases hu : c.toNat < 0x20 ∨ c = '<' ∨ c = '>' ∨ c = '&'
              · have he : escapeJSONChar c =
                    ['\\', 'u', '0', '0', hexDigit (c.toNat / 16), hexDigit (c.toNat % 16)] := by
                  unfold escapeJSONChar
                  rw [if_neg hq, if_neg hb, if_neg hn, if_neg hr, if_neg ht, if_pos hu]
                rw [he]
                have hsm : c.toNat < 256 := by
                  rcases hu with hu | hu | hu | hu
                  · omega
                  · subst hu; decide
                  · subst hu; decide
                  · subst hu; decide
                have hlt : c.toNat < 0xD800 := by omega
                have hhi : c.toNat / 16 < 16 := by omega
                have hlo : c.toNat % 16 < 16 := by omega
                simp only [List.cons_append, List.nil_append]
                rw [parse_esc_u]
                have hv0 : hexVal '0' = some 0 := by simp [hexVal]
                rw [hv0, hexVal_hexDigit _ hhi, hexVal_hexDigit _ hlo]
                have hval : 0 * 4096 + 0 * 256 + c.toNat / 16 * 16 + c.toNat % 16 = c.toNat := by
                  omega
                simp only [hval, ih tail]
                rw [if_pos (Or.inl hlt), Char.ofNat_toNat]
                rfl
              · by_cases h28 : c.toNat = 0x2028 ∨ c.toNat = 0x2029
                · have he : escapeJSONChar c =
                      ['\\', 'u', '2', '0', '2', hexDigit (c.toNat % 16)] := by
                    unfold escapeJSONChar
                    rw [if_neg hq, if_neg hb, if_neg hn, if_neg hr, if_neg ht, if_neg hu,
                      if_pos h28]
                  rw [he]
                  have hlo : c.toNat % 16 < 16 := by omega
                  simp only [List.cons_append, List.nil_append]
                  rw [parse_esc_u]
                  have hv0 : hexVal '0' = some 0 := by simp [hexVal]
                  have hv2 : hexVal '2' = some 2 := by simp [hexVal]
                  rw [hv2, hv0]
                  conv_lhs => rw [hexVal_hexDigit _ hlo]
                  have hval : 2 * 4096 + 0 * 256 + 2 * 16 + c.toNat % 16 = c.toNat := by omega
                  have hlt : c.toNat < 0xD800 := by omega
                  simp only [hval, ih tail]
                  rw [if_pos (Or.inl hlt), Char.ofNat_toNat]
                  rfl
                · have he : escapeJSONChar c = [c] := by
                    unfold escapeJSONChar
                    rw [if_neg hq, if_neg hb, if_neg hn, if_neg hr, if_neg ht, if_neg hu,
                      if_neg h28]
                  rw [he]
                  push_neg at hu
                  obtain ⟨hctl, _, _, _⟩ := hu
                  simp only [List.cons_append, List.nil_append]
                  rw [parse_verbatim c _ hq hb (by omega), ih tail]
                  rfl

theorem dropLit_append (p : List Char) : ∀ rest : List Char, dropLit p (p ++ rest) = some rest := by
  induction p with
  | nil => intro rest; rfl
  | cons c cs ih =>
    intro rest
    show (if c = c then dropLit cs (cs ++ rest) else none) = some rest
    rw [if_pos rfl, ih rest]

theorem parseSessionStateChars_marshal (st : SessionState) :
    parseSessionStateChars (marshalSessionStateChars st) = some st := by
  obtain ⟨nonce, url⟩ := st
  show parseSessionStateChars (jsonKeyN ++ (escapeJSONChars nonce.data ++
    ('"' :: (jsonKeyReturnURL ++ (escapeJSONChars url.data ++ ['"', '\x7d']))))) = _
  have h1 : parseJSONStringBody (escapeJSONChars nonce.data ++
      ('"' :: (jsonKeyReturnURL ++ (escapeJSONChars url.data ++ ['"', '\x7d'])))) =
      some (nonce.data, jsonKeyReturnURL ++ (escapeJSONChars url.data ++ ['"', '\x7d'])) :=
    parseJSONStringBody_escape nonce.data _
  have h2 : parseJSONStringBody (escapeJSONChars url.data ++ '"' :: ['\x7d']) =
      some (url.data, ['\x7d']) := parseJSONStringBody_escape url.data ['\x7d']
  unfold parseSessionStateChars
  rw [dropLit_append jsonKeyN]
  simp only [h1, dropLit_append jsonKeyReturnURL, h2, if_true]

/-- Round-trip of the session-state codec. -/
theorem decodeState_encodeState (st : SessionState) : decodeState (encodeState st) = some st := by
  unfold decodeState encodeState
  have hb : base64StdDecode (base64StdEncode (utf8Encode (marshalSessionState st))) =
      some (utf8Encode (marshalSessionState st)) :=
    base64StdDecode_base64StdEncode _ (utf8EncodeChars_lt_256 _)
  rw [hb]
  show jsonUnmarshalSessionState (utf8EncodeChars (marshalSessionStateChars st)) = some st
  unfold jsonUnmarshalSessionState
  rw [utf8DecodeChars_utf8EncodeChars]
  exact parseSessionStateChars_marshal st

/-! ## Shared helper lemmas -/

theorem contains_iff_mem (l : List String) (s : String) : contains l s = true ↔ s ∈ l := by
  induction l with
  | nil => simp [contains]
  | cons a as ih =>
    by_cases h : a = s
    · simp [contains, h]
    · simp only [contains, if_neg h, ih, List.mem_cons]
      constructor
      · intro hm; exact Or.inr hm
      · intro hm
        rcases hm with hm | hm
        · exact absurd hm.symm h
        · exact hm

theorem IsPublicRoute_iff_mem (path : String) (routes : List String) :
    IsPublicRoute path routes = true ↔ path ∈ routes := by
  induction routes with
  | nil => simp [IsPublicRoute]
  | cons a as ih =>
    by_cases h : path = a
    · simp [IsPublicRoute, h]
    · simp only [IsPublicRoute, if_neg h, ih, List.mem_cons]
      constructor
      · intro hm; exact Or.inr hm
      · intro hm
        rcases hm with hm | hm
        · exact absurd hm h
        · exact hm

theorem mem_oauth2ConfigScopes_of_mem (x y : String) (l : List String) (h : x ∈ l) :
    x ∈ (if contains l y then l else l ++ [y]) := by
  by_cases hc : contains l y <;> simp [hc, h]

theorem mem_oauth2ConfigScopes_self (y : String) (l : List String) :
    y ∈ (if contains l y then l else l ++ [y]) := by
  by_cases hc : contains l y
  · rw [if_pos hc]
    exact (contains_iff_mem l y).mp hc
  · rw [if_neg hc]
    simp

theorem oauth2ConfigScopes_forced (scopes : List String) :
    ScopeOpenID ∈ oauth2ConfigScopes scopes ∧ ScopeOfflineAccess ∈ oauth2ConfigScopes scopes ∧
    scopeEmail ∈ oauth2ConfigScopes scopes ∧ scopeGroups ∈ oauth2ConfigScopes scopes := by
  unfold oauth2ConfigScopes
  refine ⟨?_, ?_, ?_, ?_⟩
  · exact mem_oauth2ConfigScopes_of_mem _ _ _ (mem_oauth2ConfigScopes_of_mem _ _ _
      (mem_oauth2ConfigScopes_of_mem _ _ _ (mem_oauth2ConfigScopes_self _ _)))
  · exact mem_oauth2ConfigScopes_of_mem _ _ _ (mem_oauth2ConfigScopes_of_mem _ _ _
      (mem_oauth2ConfigScopes_self _ _))
  · exact mem_oauth2ConfigScopes_of_mem _ _ _ (mem_oauth2ConfigScopes_self _ _)
  · exact mem_oauth2ConfigScopes_self _ _

theorem rfc7636Unreserved_getD_mem (k : Nat) :
    rfc7636Unreserved.getD k 'A' ∈ rfc7636Unreserved := by
  by_cases h : k < rfc7636Unreserved.length
  · rw [List.getD_eq_getElem _ _ h]
    exact List.getElem_mem h
  · rw [List.getD_eq_default _ _ (by omega)]
    decide

/-! ## The claims -/

/-- C1 (counterexample): a `POST` callback request whose `state` form value
(`xyz`) differs from the `state` cookie value (`abc`) is answered with 405,
not the 400 the claim states for every such request. -/
theorem c1_counterexample :
    getCookie c1PostRequest StateCookieName = some "abc" ∧
    c1PostRequest.FormState = "xyz" ∧ "xyz" ≠ "abc" ∧
    (Callback c1Server c1PostRequest).resp.status = 405 ∧
    (Callback c1Server c1PostRequest).resp.status ≠ 400 := by
  refine ⟨rfl, rfl, by decide, rfl, by decide⟩

/-- C1 (amended): for every GET callback request carrying a `state` cookie,
a `state` form value differing from the cookie value yields 400 and the
token exchange with the identity provider is never reached (the equality
check precedes any upstream call). -/
theorem Callback_state_mismatch_400_no_exchange (s : AuthServer) (r : Request) (v : String)
    (hm : r.Method = "GET") (hc : getCookie r StateCookieName = some v)
    (hne : r.FormState ≠ v) :
    (Callback s r).resp.status = 400 ∧ (Callback s r).exchangeCalled = false := by
  by_cases he : r.FormError = ""
  · by_cases hcode : r.FormCode = ""
    · simp [Callback, hm, he, hcode, mkStatus]
    · simp [Callback, hm, he, hcode, hc, hne, mkStatus]
  · simp [Callback, hm, he, mkStatus]

/-- C1 (witness): the amended theorem at the concrete mismatching GET
request. -/
theorem c1_witness :
    (Callback c1Server c1GetRequest).resp.status = 400 ∧
    (Callback c1Server c1GetRequest).exchangeCalled = false :=
  Callback_state_mismatch_400_no_exchange c1Server c1GetRequest "abc" rfl rfl (by decide)

/-- C2: a request to a path in the public-route list (exact string equality)
is forwarded with its context untouched and without consulting the principal
resolver (the outcome is the same for any resolver); for any other path, a
resolver error or a nil principal yields the 401 denial with the fixed body,
and a resolved principal is attached to the forwarded context where
`Principal` retrieves it. -/
theorem WithAPIAuth_spec (multi multi2 : Request → Option UserPrincipal × Bool)
    (publicRoutes : List String) (r : Request) :
    (IsPublicRoute r.Path publicRoutes = true →
      WithAPIAuth multi publicRoutes r = .forwarded r.Ctx ∧
      WithAPIAuth multi publicRoutes r = WithAPIAuth multi2 publicRoutes r) ∧
    (IsPublicRoute r.Path publicRoutes = false →
      (∀ err, multi r = (none, err) →
        WithAPIAuth multi publicRoutes r = .denied 401 "Authentication required\n") ∧
      (∀ p, multi r = (some p, true) →
        WithAPIAuth multi publicRoutes r = .denied 401 "Authentication required\n") ∧
      (∀ p, multi r = (some p, false) →
        WithAPIAuth multi publicRoutes r = .forwarded (WithPrincipal r.Ctx p) ∧
        Principal (WithPrincipal r.Ctx p) = some p)) ∧
    (IsPublicRoute r.Path publicRoutes = true ↔ r.Path ∈ publicRoutes) := by
  refine ⟨?_, ?_, IsPublicRoute_iff_mem r.Path publicRoutes⟩
  · intro hpub
    constructor
    · simp [WithAPIAuth, hpub]
    · simp [WithAPIAuth, hpub]
  · intro hpub
    refine ⟨?_, ?_, ?_⟩
    · intro err hx
      simp [WithAPIAuth, hpub, hx]
    · intro p hx
      simp [WithAPIAuth, hpub, hx]
    · intro p hx
      exact ⟨by simp [WithAPIAuth, hpub, hx], rfl⟩

/-- C3: `Callback` implements exactly the specified short-circuiting step
sequence (`CallbackSpecified`, written from the spec steps), given the
configured provider. -/
theorem Callback_follows_spec (s : AuthServer) (r : Request) (p : OIDCProvider)
    (hp : s.provider = some p) : Callback s r = CallbackSpecified p s r := by
  unfold Callback CallbackSpecified decodeState
  by_cases hm : r.Method = "GET"
  · by_cases he : r.FormError = ""
    · by_cases hcode : r.FormCode = ""
      · simp [hm, he, hcode]
      · cases hcook : getCookie r StateCookieName with
        | none => simp [hm, he, hcode, hcook]
        | some cv =>
          by_cases hst : r.FormState = cv
          · cases hb : base64StdDecode cv with
            | none => simp [hm, he, hcode, hcook, hst, hb]
            | some bs =>
              cases hj : jsonUnmarshalSessionState bs with
              | none => simp [hm, he, hcode, hcook, hst, hb, hj]
              | some st =>
                cases hex : p.exchange r.FormCode with
                | none => simp [hm, he, hcode, hcook, hst, hb, hj, hp, hex]
                | some token =>
                  cases hid : token.idToken with
                  | none => simp [hm, he, hcode, hcook, hst, hb, hj, hp, hex, hid]
                  | some raw =>
                    by_cases hv : p.verifyIDToken raw = false
                    · simp [hm, he, hcode, hcook, hst, hb, hj, hp, hex, hid, hv]
                    · simp [hm, he, hcode, hcook, hst, hb, hj, hp, hex, hid, hv]
          · simp [hm, he, hcode, hcook, hst]
    · simp [hm, he]
  · simp [hm]

/-- C3 (witness): the refinement at a concrete successful callback. -/
theorem c3_witness : Callback c3Server c3Request = CallbackSpecified c3Provider c3Server c3Request :=
  Callback_follows_spec c3Server c3Request c3Provider rfl

/-- C4 (counterexample): with the correct password but a failing token
signer, `SignIn` answers 500 — a failure code outside the claimed set
of 400, 401 and 405 (and not the claimed 200 on match). -/
theorem c4_counterexample :
    SignIn c4Server c4Request = mkStatus 500 ∧
    (500 : Nat) ≠ 200 ∧ (500 : Nat) ≠ 400 ∧ (500 : Nat) ≠ 401 ∧ (500 : Nat) ≠ 405 := by
  refine ⟨by decide, by decide, by decide, by decide, by decide⟩

/-- C4 (amended): `SignIn` implements the specified sequence with the 500
signing-failure outcome added (`SignInSpecified`); it never sets a
refresh-token cookie, and its status is always one of 200, 400, 401, 405
and 500. -/
theorem SignIn_follows_spec (s : AuthServer) (r : Request) :
    SignIn s r = SignInSpecified s r ∧
    (∀ c ∈ (SignIn s r).cookies, c.name ≠ RefreshTokenCookieName) ∧
    ((SignIn s r).status = 200 ∨ (SignIn s r).status = 400 ∨ (SignIn s r).status = 401 ∨
      (SignIn s r).status = 405 ∨ (SignIn s r).status = 500) := by
  refine ⟨rfl, ?_, ?_⟩
  · unfold SignIn
    by_cases hm : r.Method = "POST"
    · cases hb : r.JSONBody with
      | none => simp [hm, hb]
      | some login =>
        cases hs : s.adminSecretData with
        | none => simp [hm, hb, hs]
        | some data =>
          by_cases hbc : s.bcryptOk (((data.find? fun kv => kv.1 == "password").map (·.2)).getD "")
              login.Password = false
          · simp [hm, hb, hs, hbc, mkStatus]
          · cases hsig : s.signLocal with
            | none => simp [hm, hb, hs, hbc, hsig, mkStatus]
            | some signed =>
              simp [hm, hb, hs, hbc, hsig]
              intro h
              have h2 : IDTokenCookieName = RefreshTokenCookieName := h
              exact absurd h2 (by decide)
    · simp [hm]
  · unfold SignIn
    by_cases hm : r.Method = "POST"
    · cases hb : r.JSONBody with
      | none => simp [hm, hb]
      | some login =>
        cases hs : s.adminSecretData with
        | none => simp [hm, hb, hs]
        | some data =>
          by_cases hbc : s.bcryptOk (((data.find? fun kv => kv.1 == "password").map (·.2)).getD "")
              login.Password = false
          · simp [hm, hb, hs, hbc, mkStatus]
          · cases hsig : s.signLocal with
            | none => simp [hm, hb, hs, hbc, hsig, mkStatus]
            | some signed => simp [hm, hb, hs, hbc, hsig]
    · simp [hm]

/-- C5 (counterexample): when the local verifier accepts the cookie, the 200
JSON body renders the nil `Groups` slice as `groups` `null`, not the empty
list the claim states. -/
theorem c5_counterexample :
    (UserInfo c5Server c5Request).status = 200 ∧
    (UserInfo c5Server c5Request).body = some "\x7b\"email\":\"admin\",\"groups\":null\x7d" ∧
    (UserInfo c5Server c5Request).body ≠ some "\x7b\"email\":\"admin\",\"groups\":[]\x7d" := by
  refine ⟨by decide, by decide, by decide⟩

/-- C5 (amended): for every GET request to `UserInfo`, a missing `id_token`
cookie yields 400; a locally verified cookie yields 200 with the JSON body
carrying the claims subject as email and `groups` rendered `null` (the nil
slice); on local-verification failure the cookie value goes to the provider
user-info endpoint as an access token, whose failure yields 401 and whose
success yields 200 with the provider-reported email. -/
theorem UserInfo_characterization (s : AuthServer) (r : Request) (p : OIDCProvider)
    (hp : s.provider = some p) :
    (r.Method = "GET" → getCookie r IDTokenCookieName = none → UserInfo s r = mkStatus 400) ∧
    (∀ v claims, r.Method = "GET" → getCookie r IDTokenCookieName = some v →
      s.verifyLocal v = some claims →
      UserInfo s r =
        ⟨200, none, [], none, some (marshalUserInfo ⟨claims.Subject, none⟩), false⟩) ∧
    (∀ v, r.Method = "GET" → getCookie r IDTokenCookieName = some v → s.verifyLocal v = none →
      p.userInfoEmail v = none → (UserInfo s r).status = 401) ∧
    (∀ v email, r.Method = "GET" → getCookie r IDTokenCookieName = some v →
      s.verifyLocal v = none → p.userInfoEmail v = some email →
      UserInfo s r = ⟨200, none, [], none, some (marshalUserInfo ⟨email, none⟩), false⟩) := by
  refine ⟨?_, ?_, ?_, ?_⟩
  · intro hm hc
    simp [UserInfo, hm, hc]
  · intro v claims hm hc hv
    simp [UserInfo, hm, hc, hv]
  · intro v hm hc hv hu
    simp [UserInfo, hm, hc, hv, hp, hu]
  · intro v email hm hc hv hu
    simp [UserInfo, hm, hc, hv, hp, hu]

/-- C5 (witness): the provider fallback path at a concrete request. -/
theorem c5_witness :
    UserInfo c5ProvServer c5ProvRequest =
      ⟨200, none, [], none, some (marshalUserInfo ⟨"user@example.org", none⟩), false⟩ :=
  (UserInfo_characterization c5ProvServer c5ProvRequest c5Provider rfl).2.2.2 "tok"
    "user@example.org" rfl rfl rfl rfl

/-- C6: with no identity provider configured the flow-start endpoint yields
400; with one configured it yields 303 to the provider authorize URL whose
scope list is exactly profile, openid, offline_access, email and groups, and
`oauth2Config` force-includes openid, offline_access, email and groups into
any requested scope list. -/
theorem OAuth2Flow_spec (s : AuthServer) (r : Request) (p : OIDCProvider) (n : String)
    (hiss : s.config.oidc.IssuerURL ≠ "") (hp : s.provider = some p) (hn : s.nonce = some n) :
    (OAuth2Flow s r).status = 303 ∧
    (OAuth2Flow s r).authRedirect = some (authCodeURL (oauth2Config s p [scopeProfile])
      (encodeState ⟨n, if r.QueryReturnURL = "" then r.URLString else r.QueryReturnURL⟩)) ∧
    (∀ u, (OAuth2Flow s r).authRedirect = some u →
      u.Endpoint = p.Endpoint.AuthURL ∧ u.ClientID = s.config.oidc.ClientID ∧
      u.Scopes = [scopeProfile, ScopeOpenID, ScopeOfflineAccess, scopeEmail, scopeGroups]) ∧
    (∀ sc : List String, ScopeOpenID ∈ oauth2ConfigScopes sc ∧
      ScopeOfflineAccess ∈ oauth2ConfigScopes sc ∧ scopeEmail ∈ oauth2ConfigScopes sc ∧
      scopeGroups ∈ oauth2ConfigScopes sc) ∧
    (∀ s2 : AuthServer, ∀ r2 : Request, s2.config.oidc.IssuerURL = "" →
      OAuth2Flow s2 r2 = ⟨400, [], none, some "oidc provider not configured\n", false⟩) := by
  have hscopes : oauth2ConfigScopes [scopeProfile] =
      [scopeProfile, ScopeOpenID, ScopeOfflineAccess, scopeEmail, scopeGroups] := by decide
  refine ⟨?_, ?_, ?_, oauth2ConfigScopes_forced, ?_⟩
  · simp [OAuth2Flow, oidcEnabled, hiss, startAuthFlow, hn, hp]
  · simp [OAuth2Flow, oidcEnabled, hiss, startAuthFlow, hn, hp]
  · intro u hu
    simp [OAuth2Flow, oidcEnabled, hiss, startAuthFlow, hn, hp] at hu
    subst hu
    exact ⟨rfl, rfl, by simp [authCodeURL, oauth2Config, hscopes]⟩
  · intro s2 r2 hiss2
    simp [OAuth2Flow, oidcEnabled, hiss2]

/-- C6 (witness): the configured flow at a concrete server and request. -/
theorem c6_witness :
    (OAuth2Flow c6Server c6Request).status = 303 ∧
    (OAuth2Flow c6Server c6Request).authRedirect =
      some (authCodeURL (oauth2Config c6Server demoProvider [scopeProfile])
        (encodeState ⟨"nonce0",
          if c6Request.QueryReturnURL = "" then c6Request.URLString
          else c6Request.QueryReturnURL⟩)) ∧
    (∀ u, (OAuth2Flow c6Server c6Request).authRedirect = some u →
      u.Endpoint = demoProvider.Endpoint.AuthURL ∧
      u.ClientID = c6Server.config.oidc.ClientID ∧
      u.Scopes = [scopeProfile, ScopeOpenID, ScopeOfflineAccess, scopeEmail, scopeGroups]) ∧
    (∀ sc : List String, ScopeOpenID ∈ oauth2ConfigScopes sc ∧
      ScopeOfflineAccess ∈ oauth2ConfigScopes sc ∧ scopeEmail ∈ oauth2ConfigScopes sc ∧
      scopeGroups ∈ oauth2ConfigScopes sc) ∧
    (∀ s2 : AuthServer, ∀ r2 : Request, s2.config.oidc.IssuerURL = "" →
      OAuth2Flow s2 r2 = ⟨400, [], none, some "oidc provider not configured\n", false⟩) :=
  OAuth2Flow_spec c6Server c6Request demoProvider "nonce0" (by decide) rfl rfl

/-- C7: `NewCodeVerifier` yields the `InvalidRange` error exactly off the
valid range; on every valid pair the verifier length lies within the bounds
and every character is in the RFC 7636 unreserved set, and `CodeChallenge`
is a pure function of the verifier value. -/
theorem NewCodeVerifier_spec (minLength maxLength lenChoice : Nat) (charChoice : Nat → Nat)
    (h1 : 43 ≤ minLength) (h2 : minLength ≤ maxLength) (h3 : maxLength ≤ 128) :
    (∃ v, NewCodeVerifier minLength maxLength lenChoice charChoice = .ok v ∧
      minLength ≤ v.value.length ∧ v.value.length ≤ maxLength ∧
      (∀ c ∈ v.value.data, c ∈ rfc7636Unreserved)) ∧
    (∀ a b lc : Nat, ∀ cc : Nat → Nat, (b < a ∨ a < 43 ∨ 128 < a ∨ b < 43 ∨ 128 < b) →
      NewCodeVerifier a b lc cc = .error .invalidRange) ∧
    (∀ v w : CodeVerifier, v.value = w.value → CodeChallenge v = CodeChallenge w) := by
  refine ⟨?_, ?_, ?_⟩
  · unfold NewCodeVerifier
    rw [if_neg (by omega)]
    refine ⟨_, rfl, ?_, ?_, ?_⟩
    · show minLength ≤ (String.mk _).length
      have : (String.mk ((List.range (minLength + lenChoice % (maxLength - minLength + 1))).map
          fun i => rfc7636Unreserved.getD (charChoice i % 66) 'A')).length =
          minLength + lenChoice % (maxLength - minLength + 1) := by
        simp [String.length]
      omega
    · show (String.mk _).length ≤ maxLength
      have hmod : lenChoice % (maxLength - minLength + 1) < maxLength - minLength + 1 :=
        Nat.mod_lt lenChoice (by omega)
      have : (String.mk ((List.range (minLength + lenChoice % (maxLength - minLength + 1))).map
          fun i => rfc7636Unreserved.getD (charChoice i % 66) 'A')).length =
          minLength + lenChoice % (maxLength - minLength + 1) := by
        simp [String.length]
      omega
    · intro c hc
      simp only [String.data] at hc
      simp only [List.mem_map] at hc
      obtain ⟨i, _, hi⟩ := hc
      rw [← hi]
      exact rfc7636Unreserved_getD_mem _
  · intro a b lc cc hbad
    unfold NewCodeVerifier
    rw [if_pos (by omega)]
  · intro v w h
    unfold CodeChallenge
    rw [h]

/-- C7 (witness): a concrete valid pair of bounds. -/
theorem c7_witness :
    ∃ v, NewCodeVerifier 43 128 7 (fun i => i) = .ok v ∧
      43 ≤ v.value.length ∧ v.value.length ≤ 128 ∧ (∀ c ∈ v.value.data, c ∈ rfc7636Unreserved) :=
  (NewCodeVerifier_spec 43 128 7 (fun i => i) (by omega) (by omega) (by omega)).1

/-- C8 (amended): for every client id, scope list, code verifier and every
redirect URL the URL parser accepts, the GitLab authorize URL has host
`gitlab.com`, path `/oauth/authorize` and exactly the six specified query
parameters, carrying the derived challenge and never a `code_verifier`
parameter; the raw verifier appears only in the token URL `code_verifier`
parameter (and in no authorize parameter value unless it collides with one
of the six unrelated values); a malformed redirect URL yields the
`URLParseError` instead of a URL. -/
theorem GitlabAuthorizeUrl_spec (cid sec redirect code : String) (scopes : List String)
    (v : CodeVerifier) (hok : urlParseOk redirect = true) :
    (∃ u, GitlabAuthorizeUrl cid redirect scopes v = .ok u ∧
      u.Host = "gitlab.com" ∧ u.Path = "/oauth/authorize" ∧ u.Query.length = 6 ∧
      u.Query.map Prod.fst = ["client_id", "response_type", "scope", "code_challenge",
        "code_challenge_method", "redirect_uri"] ∧
      queryGet u "client_id" = some cid ∧
      queryGet u "response_type" = some "code" ∧
      queryGet u "scope" = some (String.intercalate " " scopes) ∧
      queryGet u "code_challenge" = some (CodeChallenge v) ∧
      queryGet u "code_challenge_method" = some "S256" ∧
      queryGet u "redirect_uri" = some redirect ∧
      "code_verifier" ∉ u.Query.map Prod.fst ∧
      (RawValue v ≠ cid → RawValue v ≠ "code" → RawValue v ≠ String.intercalate " " scopes →
        RawValue v ≠ CodeChallenge v → RawValue v ≠ "S256" → RawValue v ≠ redirect →
        ∀ kv ∈ u.Query, kv.2 ≠ RawValue v)) ∧
    queryGet (GitlabTokenUrl cid sec redirect code v) "code_verifier" = some (RawValue v) ∧
    (∀ rb : String, urlParseOk rb = false →
      GitlabAuthorizeUrl cid rb scopes v = .error .malformedRedirectURL) := by
  refine ⟨?_, rfl, ?_⟩
  · unfold GitlabAuthorizeUrl
    rw [if_neg (by simp [hok])]
    refine ⟨_, rfl, rfl, rfl, rfl, rfl, rfl, rfl, rfl, rfl, rfl, rfl, ?_, ?_⟩
    · show "code_verifier" ∉ ["client_id", "response_type", "scope", "code_challenge",
        "code_challenge_method", "redirect_uri"]
      decide
    · intro h1 h2 h3 h4 h5 h6 kv hkv
      simp only [List.mem_cons, List.not_mem_nil, or_false] at hkv
      rcases hkv with h | h | h | h | h | h <;> subst h
      · exact fun e => h1 e.symm
      · exact fun e => h2 e.symm
      · exact fun e => h3 e.symm
      · exact fun e => h4 e.symm
      · exact fun e => h5 e.symm
      · exact fun e => h6 e.symm
  · intro rb hrb
    unfold GitlabAuthorizeUrl
    rw [if_pos hrb]

/-- C8 (counterexample): a redirect URL containing an ASCII control
character is malformed, and the authorize-URL builder yields the
`URLParseError` instead of any URL — refuting the claim's universal over
every redirect URL. -/
theorem c8_counterexample :
    GitlabAuthorizeUrl "client-x" "https://weave.works/\n" ["api"] ⟨"v"⟩ =
      .error .malformedRedirectURL ∧
    ∀ u : GoURL, GitlabAuthorizeUrl "client-x" "https://weave.works/\n" ["api"] ⟨"v"⟩ ≠ .ok u := by
  have he : GitlabAuthorizeUrl "client-x" "https://weave.works/\n" ["api"] ⟨"v"⟩ =
      .error .malformedRedirectURL := by
    unfold GitlabAuthorizeUrl
    rw [if_pos (by decide)]
  refine ⟨he, ?_⟩
  intro u h
  rw [he] at h
  exact Except.noConfusion h

/-- C8 (witness): the amended theorem at the concrete inputs of
`gitlab_test.go`. -/
theorem c8_witness :
    ∃ u, GitlabAuthorizeUrl "client-x" "https://weave.works/test"
      ["api", "read_user", "profile"] ⟨"v"⟩ = .ok u ∧
      u.Host = "gitlab.com" ∧ u.Path = "/oauth/authorize" ∧ u.Query.length = 6 := by
  obtain ⟨u, he, hh, hp, hl, _⟩ :=
    (GitlabAuthorizeUrl_spec "client-x" "secret-x" "https://weave.works/test" "12345"
      ["api", "read_user", "profile"] ⟨"v"⟩ (by decide)).1
  exact ⟨u, he, hh, hp, hl⟩

/-- C9: `Encode` is the standard base64 of the JSON object with keys `n` and
`return_url`; decoding inverts it for every nonce/returnURL pair (URLs with
query parameters included); and a callback whose matching state value fails
base64 or JSON decoding is rejected with 400 before any exchange. -/
theorem SessionState_codec_spec (nonce url : String) (s : AuthServer) (r : Request) (v : String)
    (hm : r.Method = "GET") (he : r.FormError = "") (hcode : r.FormCode ≠ "")
    (hcook : getCookie r StateCookieName = some v) (hst : r.FormState = v)
    (hbad : base64StdDecode v = none ∨
      ∃ bs, base64StdDecode v = some bs ∧ jsonUnmarshalSessionState bs = none) :
    encodeState ⟨nonce, url⟩ =
      base64StdEncode (utf8Encode (marshalSessionState ⟨nonce, url⟩)) ∧
    decodeState (encodeState ⟨nonce, url⟩) = some ⟨nonce, url⟩ ∧
    (Callback s r).resp.status = 400 ∧ (Callback s r).exchangeCalled = false := by
  refine ⟨rfl, decodeState_encodeState _, ?_, ?_⟩
  · rcases hbad with hb | ⟨bs, hb, hj⟩
    · simp [Callback, hm, he, hcode, hcook, hst, hb, mkStatus]
    · simp [Callback, hm, he, hcode, hcook, hst, hb, hj, mkStatus]
  · rcases hbad with hb | ⟨bs, hb, hj⟩
    · simp [Callback, hm, he, hcode, hcook, hst, hb, mkStatus]
    · simp [Callback, hm, he, hcode, hcook, hst, hb, hj, mkStatus]

/-- C9 (witness): a query-carrying return URL round-trips, and a concrete
callback with an undecodable matching state value is rejected with 400. -/
theorem c9_witness :
    encodeState ⟨"nonce1", "https://rp.example/path?a=b&c=d"⟩ =
      base64StdEncode (utf8Encode (marshalSessionState
        ⟨"nonce1", "https://rp.example/path?a=b&c=d"⟩)) ∧
    decodeState (encodeState ⟨"nonce1", "https://rp.example/path?a=b&c=d"⟩) =
      some ⟨"nonce1", "https://rp.example/path?a=b&c=d"⟩ ∧
    (Callback c1Server c9Request).resp.status = 400 ∧
    (Callback c1Server c9Request).exchangeCalled = false :=
  SessionState_codec_spec "nonce1" "https://rp.example/path?a=b&c=d" c1Server c9Request "%%%"
    rfl rfl (by decide) rfl rfl (Or.inl (by decide))

/-- C10: `NewAuthServer` with no issuer URL succeeds and leaves the provider
nil, and a GET to `UserInfo` whose cookie fails local verification then
reaches the provider user-info call unconditionally — on the nil provider
this is a nil-pointer dereference (modelled as the panicked outcome), not an
error status. -/
theorem UserInfo_nil_provider (config : AuthConfig) (d : String → Option OIDCProvider)
    (vl : String → Option TokenClaims) (sl : Option String)
    (sd : Option (List (String × String))) (bc : String → String → Bool) (nn : Option String)
    (r : Request) (v : String)
    (hiss : config.oidc.IssuerURL = "") (hm : r.Method = "GET")
    (hcv : getCookie r IDTokenCookieName = some v) (hfail : vl v = none) :
    NewAuthServer config d true vl sl sd bc nn = some ⟨config, none, vl, sl, sd, bc, nn⟩ ∧
    UserInfo ⟨config, none, vl, sl, sd, bc, nn⟩ r = nilProviderPanic ∧
    (UserInfo ⟨config, none, vl, sl, sd, bc, nn⟩ r).panicked = true ∧
    (UserInfo ⟨config, none, vl, sl, sd, bc, nn⟩ r).status ≠ 400 ∧
    (UserInfo ⟨config, none, vl, sl, sd, bc, nn⟩ r).status ≠ 401 ∧
    (UserInfo ⟨config, none, vl, sl, sd, bc, nn⟩ r).status ≠ 500 := by
  have hu : UserInfo ⟨config, none, vl, sl, sd, bc, nn⟩ r = nilProviderPanic := by
    simp [UserInfo, hm, hcv, hfail]
  refine ⟨by simp [NewAuthServer, hiss], hu, by rw [hu]; rfl, by rw [hu]; decide,
    by rw [hu]; decide, by rw [hu]; decide⟩

/-- C10 (witness): the nil-provider dereference at a concrete
configuration. -/
theorem c10_witness :
    NewAuthServer ⟨⟨"", "client-id", "client-secret", "https://rp.example/oauth2/callback"⟩⟩
      (fun _ => none) true (fun _ => none) none none (fun _ _ => false) none =
      some ⟨⟨⟨"", "client-id", "client-secret", "https://rp.example/oauth2/callback"⟩⟩, none,
        fun _ => none, none, none, fun _ _ => false, none⟩ ∧
    UserInfo ⟨⟨⟨"", "client-id", "client-secret", "https://rp.example/oauth2/callback"⟩⟩, none,
      fun _ => none, none, none, fun _ _ => false, none⟩ c10Request = nilProviderPanic ∧
    (UserInfo ⟨⟨⟨"", "client-id", "client-secret", "https://rp.example/oauth2/callback"⟩⟩, none,
      fun _ => none, none, none, fun _ _ => false, none⟩ c10Request).panicked = true ∧
    (UserInfo ⟨⟨⟨"", "client-id", "client-secret", "https://rp.example/oauth2/callback"⟩⟩, none,
      fun _ => none, none, none, fun _ _ => false, none⟩ c10Request).status ≠ 400 ∧
    (UserInfo ⟨⟨⟨"", "client-id", "client-secret", "https://rp.example/oauth2/callback"⟩⟩, none,
      fun _ => none, none, none, fun _ _ => false, none⟩ c10Request).status ≠ 401 ∧
    (UserInfo ⟨⟨⟨"", "client-id", "client-secret", "https://rp.example/oauth2/callback"⟩⟩, none,
      fun _ => none, none, none, fun _ _ => false, none⟩ c10Request).status ≠ 500 :=
  UserInfo_nil_provider ⟨⟨"", "client-id", "client-secret", "https://rp.example/oauth2/callback"⟩⟩
    (fun _ => none) (fun _ => none) none none (fun _ _ => false) none c10Request "sometok"
    rfl rfl rfl rfl

end WeaveGitops
